import Mathlib

/-!
Verification of the FIFO ticketing / exclusive GPU-lock subsystem of
`service/time_series_forecast_service.py`.

The module-level shared state of the Python file is
`GPU_DEVICE_BUSY : bool`, `GPU_QUEUE : list of int`, `GPU_QUEUE_ID : int`
(initially `False`, `[]`, `-1`).  The four leaf functions
`get_gpu_queue_id`, `remove_from_queue`, `acquire_gpu`, `release_gpu`
are embedded as pure state transformers below; Python's `list.remove`,
which deletes the first occurrence and raises `ValueError` when the
element is absent, is modelled with `Option` (`none` = the exception).

The per-call control flow of `ForecastServicer.forecast` is embedded as a
small-step relation `ThreadStep` on a per-thread program counter `Phase`,
and the whole service (a pool of worker threads handling calls in
parallel) as the interleaving relation `Step` on `SysState`.  Each step
corresponds to one atomic observation/mutation of the shared globals.
-/

/-- The shared module-level globals of the Python file. -/
structure GpuState where
  GPU_DEVICE_BUSY : Bool
  GPU_QUEUE : List Int
  GPU_QUEUE_ID : Int
deriving DecidableEq, Repr

/-- `get_gpu_queue_id`: increments `GPU_QUEUE_ID`, appends the new value to
the tail of `GPU_QUEUE` and returns it (lines 129-135 of the source). -/
def get_gpu_queue_id (g : GpuState) : Int × GpuState :=
  (g.GPU_QUEUE_ID + 1,
    ⟨g.GPU_DEVICE_BUSY, g.GPU_QUEUE ++ [g.GPU_QUEUE_ID + 1], g.GPU_QUEUE_ID + 1⟩)

/-- `remove_from_queue`: `GPU_QUEUE.remove(gpu_queue_id)` (lines 138-140).
Python's `list.remove` deletes the first occurrence and raises
`ValueError` when the element is absent; `none` models the exception. -/
def remove_from_queue (k : Int) (g : GpuState) : Option GpuState :=
  if k ∈ g.GPU_QUEUE then some { g with GPU_QUEUE := g.GPU_QUEUE.erase k } else none

/-- `acquire_gpu`: unconditionally sets `GPU_DEVICE_BUSY = True`
(lines 143-147).  The function performs no check of the flag and cannot
fail; the `gpu_queue_id` argument is only logged. -/
def acquire_gpu (g : GpuState) : GpuState :=
  { g with GPU_DEVICE_BUSY := true }

/-- `release_gpu`: first `remove_from_queue(gpu_queue_id)`, then
`GPU_DEVICE_BUSY = False` (lines 150-155).  If the removal raises, the
flag assignment is never reached, hence the `Option.map`. -/
def release_gpu (k : Int) (g : GpuState) : Option GpuState :=
  (remove_from_queue k g).map (fun g2 => { g2 with GPU_DEVICE_BUSY := false })

/-- The guard of the wait loop, line 56:
`while GPU_DEVICE_BUSY or GPU_QUEUE[0] != gpu_queue_id`.
`GPU_QUEUE[0]` is modelled with `head?`; on every reachable evaluation the
waiter's own ticket is in the queue, so the queue is non-empty and
`head? ≠ some k` coincides with `GPU_QUEUE[0] != gpu_queue_id`. -/
def waitCond (g : GpuState) (k : Int) : Bool :=
  g.GPU_DEVICE_BUSY || g.GPU_QUEUE.head? != some k

/-- The protobuf `Output` message: `Output()` with no arguments yields the
field defaults (empty strings, zero). -/
structure Output where
  last_sax_word : String
  forecast_sax_letter : String
  position_in_sax_interval : Int
deriving DecidableEq, Repr

/-- `Output()` with protobuf defaults. -/
def emptyOutput : Output := ⟨"", "", 0⟩

/-- The only gRPC status code the source ever sets out-of-band
(`grpc.StatusCode.INTERNAL`, line 101). -/
inductive StatusCode where
  | INTERNAL
deriving DecidableEq, Repr

/-- What a finished call hands back to the RPC layer: the returned
`Output` plus whatever `context.set_code` / `context.set_details`
were given (`none` = the setter was never called / was called with
Python `None`). -/
structure RpcResult where
  out : Output
  code : Option StatusCode
  details : Option String
deriving DecidableEq, Repr

/-- The dictionary produced by the isolated forecast computation
(`return_dict["response"]` filled by `mp_forecast`).  The computation is
an opaque external collaborator, so the field values are arbitrary;
`error = some msg` models the presence of an `"error"` key. -/
structure RespDict where
  last_sax_word : String
  forecast_sax_letter : String
  position_in_sax_interval : Int
  error : Option String
deriving DecidableEq, Repr

/-- Lines 96-102: the response check failed (`not response or "error" in
response`); the call does `set_details(error_msg)`,
`set_code(INTERNAL)` and returns `Output()`. -/
def errResult (msg : Option String) : RpcResult :=
  ⟨emptyOutput, some StatusCode.INTERNAL, msg⟩

/-- Lines 114-116: the success response built from the computation's
dictionary; no status code or details are set. -/
def okResult (d : RespDict) : RpcResult :=
  ⟨⟨d.last_sax_word, d.forecast_sax_letter, d.position_in_sax_interval⟩, none, none⟩

/-- Lines 124-126: the response returned from the `except` handler.
Note: no `set_code` / `set_details` on this path. -/
def failResult : RpcResult :=
  ⟨⟨"Fail", "Fail", -1⟩, none, none⟩

/-- The program counter of one call of `ForecastServicer.forecast`.
`waiting c` carries the loop counter `count`; `releasing`/`returning`
carry the computation's dictionary (used to build the success `Output`);
the `done…` phases carry the `RpcResult` the call returned.
`handler held` is the `except` block; `held` is a ghost flag recording
whether the call held the lock when the exception was raised (the
handler's behaviour never depends on it — it only feeds the invariants). -/
inductive Phase where
  | entry
  | waiting (count : Nat)
  | toAcquire
  | computing
  | releasing (d : RespDict)
  | returning (d : RespDict)
  | handler (held : Bool)
  | doneOk (r : RpcResult)
  | doneLeak (r : RpcResult)
  | doneFail (r : RpcResult)
  | crashed
deriving DecidableEq, Repr

/-- One worker-thread call: its program counter and its ticket
(`none` before `get_gpu_queue_id` has run). -/
structure Thread where
  phase : Phase
  ticket : Option Int
deriving DecidableEq, Repr

/-- One atomic step of a single call of `forecast` against the shared
globals.  Line references are to `time_series_forecast_service.py`. -/
inductive ThreadStep : GpuState → Thread → GpuState → Thread → Prop where
  /-- Line 52: `gpu_queue_id = get_gpu_queue_id()`. -/
  | enter (g : GpuState) :
      ThreadStep g ⟨.entry, none⟩
        (get_gpu_queue_id g).2 ⟨.waiting 0, some (get_gpu_queue_id g).1⟩
  /-- Lines 56-64: the loop guard is true, so one more iteration runs
  (sleep, diagnostic log, `count += 1`).  Note the body's timeout check
  `if count > 60 * 60:` merely evaluates
  `Output(last_sax_word="GPU Busy!", ...)` and discards it — there is no
  `return` and no `break` — so the iteration is the same for every
  `count`, including `count > 3600`. -/
  | poll (g : GpuState) (k : Int) (c : Nat) :
      waitCond g k = true →
      ThreadStep g ⟨.waiting c, some k⟩ g ⟨.waiting (c + 1), some k⟩
  /-- An exception raised inside the loop body (e.g. an interrupted
  `time.sleep`) jumps to the `except` handler; the call never held the
  lock, so the ghost flag is `false`. -/
  | waitFault (g : GpuState) (k : Int) (c : Nat) :
      ThreadStep g ⟨.waiting c, some k⟩ g ⟨.handler false, some k⟩
  /-- Line 56: the guard is false (`not GPU_DEVICE_BUSY and
  GPU_QUEUE[0] == gpu_queue_id`), so the loop exits. -/
  | exitLoop (g : GpuState) (k : Int) (c : Nat) :
      waitCond g k = false →
      ThreadStep g ⟨.waiting c, some k⟩ g ⟨.toAcquire, some k⟩
  /-- Line 67: `acquire_gpu(gpu_queue_id)`. -/
  | acquire (g : GpuState) (k : Int) :
      ThreadStep g ⟨.toAcquire, some k⟩ (acquire_gpu g) ⟨.computing, some k⟩
  /-- Lines 70-102, outcome `not response or "error" in response`:
  the call returns `Output()` with `INTERNAL` set — WITHOUT calling
  `release_gpu` or `remove_from_queue` (the leak). `msg = none` models a
  missing/falsy response, `msg = some m` an `"error"` entry. -/
  | computeBad (g : GpuState) (k : Int) (msg : Option String) :
      ThreadStep g ⟨.computing, some k⟩ g ⟨.doneLeak (errResult msg), some k⟩
  /-- Lines 70-110, outcome: a usable response dictionary without an
  `"error"` key; the call proceeds towards `release_gpu`. -/
  | computeGood (g : GpuState) (k : Int) (d : RespDict) :
      d.error = none →
      ThreadStep g ⟨.computing, some k⟩ g ⟨.releasing d, some k⟩
  /-- An exception anywhere in lines 70-110 (e.g. the `Forecast`
  constructor or `multiprocessing` raising, or a `KeyError` in the
  `log.debug` of line 104) jumps to the handler while the call still
  holds the lock. -/
  | computeFault (g : GpuState) (k : Int) :
      ThreadStep g ⟨.computing, some k⟩ g ⟨.handler true, some k⟩
  /-- Line 113: `release_gpu(gpu_queue_id)` succeeds. -/
  | release (g g2 : GpuState) (k : Int) (d : RespDict) :
      release_gpu k g = some g2 →
      ThreadStep g ⟨.releasing d, some k⟩ g2 ⟨.returning d, some k⟩
  /-- Line 113: `release_gpu` raises (`ValueError` from `list.remove`);
  the flag was not yet written, the queue is unchanged, and control moves
  to the handler.  (Unreachable: the releasing call's ticket is queued.) -/
  | releaseFault (g : GpuState) (k : Int) (d : RespDict) :
      release_gpu k g = none →
      ThreadStep g ⟨.releasing d, some k⟩ g ⟨.handler true, some k⟩
  /-- Lines 114-116: the success `Output` is built and returned. -/
  | returnOk (g : GpuState) (k : Int) (d : RespDict) :
      ThreadStep g ⟨.returning d, some k⟩ g ⟨.doneOk (okResult d), some k⟩
  /-- Lines 114-116: building the success `Output` raises (protobuf
  rejects non-conforming field values coming from the opaque
  computation); the lock was already released. -/
  | returnFault (g : GpuState) (k : Int) (d : RespDict) :
      ThreadStep g ⟨.returning d, some k⟩ g ⟨.handler false, some k⟩
  /-- Lines 120-121 + 124-126: `gpu_queue_id == GPU_QUEUE[0]`, so the
  handler calls `release_gpu` and returns the `Fail` output. -/
  | handlerHead (g g2 : GpuState) (held : Bool) (k : Int) :
      g.GPU_QUEUE.head? = some k →
      release_gpu k g = some g2 →
      ThreadStep g ⟨.handler held, some k⟩ g2 ⟨.doneFail failResult, some k⟩
  /-- Lines 122-126: the queue is non-empty, the head is another ticket,
  and `remove_from_queue(gpu_queue_id)` succeeds; the `Fail` output is
  returned. -/
  | handlerRemove (g g2 : GpuState) (held : Bool) (k : Int) :
      g.GPU_QUEUE ≠ [] →
      g.GPU_QUEUE.head? ≠ some k →
      remove_from_queue k g = some g2 →
      ThreadStep g ⟨.handler held, some k⟩ g2 ⟨.doneFail failResult, some k⟩
  /-- Lines 122-123: the queue is non-empty, the head is another ticket,
  and `remove_from_queue` raises `ValueError` (the ticket is no longer
  queued).  The exception escapes `forecast` uncaught. -/
  | handlerRemoveFault (g : GpuState) (held : Bool) (k : Int) :
      g.GPU_QUEUE ≠ [] →
      g.GPU_QUEUE.head? ≠ some k →
      remove_from_queue k g = none →
      ThreadStep g ⟨.handler held, some k⟩ g ⟨.crashed, some k⟩
  /-- Line 120: evaluating `GPU_QUEUE[0]` on an empty queue raises
  `IndexError` inside the handler; it escapes `forecast` uncaught. -/
  | handlerEmpty (g : GpuState) (held : Bool) (k : Int) :
      g.GPU_QUEUE = [] →
      ThreadStep g ⟨.handler held, some k⟩ g ⟨.crashed, some k⟩

/-- Ghost acquisition log: when a thread performs the `acquire_gpu` step
(`toAcquire` to `computing`) its ticket is appended.  The log never feeds
back into any step; it only records the order in which calls acquired
the device. -/
def acqAppend (t t2 : Thread) (log : List Int) : List Int :=
  match t.phase with
  | .toAcquire =>
    match t2.phase with
    | .computing =>
      match t.ticket with
      | some k => log ++ [k]
      | none => log
    | _ => log
  | _ => log

/-- The whole service: the shared globals, the pool of worker-thread
calls, and the ghost acquisition log. -/
structure SysState where
  gpu : GpuState
  threads : List Thread
  acqLog : List Int
deriving DecidableEq, Repr

/-- Interleaving semantics: some thread performs one atomic step, all
other threads are unchanged. -/
inductive Step : SysState → SysState → Prop where
  | mk (g g2 : GpuState) (l1 l2 : List Thread) (t t2 : Thread) (log : List Int) :
      ThreadStep g t g2 t2 →
      Step ⟨g, l1 ++ t :: l2, log⟩ ⟨g2, l1 ++ t2 :: l2, acqAppend t t2 log⟩

/-- Service start: globals `False`, `[]`, `-1`; `n` idle worker calls. -/
def initState (n : Nat) : SysState :=
  ⟨⟨false, [], -1⟩, List.replicate n ⟨.entry, none⟩, []⟩

/-- The states an `n`-worker service can reach. -/
def Reachable (n : Nat) (s : SysState) : Prop :=
  Relation.ReflTransGen Step (initState n) s

/-- Phases whose call's ticket is certainly still in `GPU_QUEUE`. -/
def inQPhase : Phase → Bool
  | .waiting _ => true
  | .toAcquire => true
  | .computing => true
  | .releasing _ => true
  | .doneLeak _ => true
  | .handler held => held
  | _ => false

/-- Phases whose call's ticket is certainly no longer in `GPU_QUEUE`. -/
def outQPhase : Phase → Bool
  | .returning _ => true
  | .doneOk _ => true
  | .doneFail _ => true
  | .crashed => true
  | _ => false

/-- The call currently holds the device: it ran `acquire_gpu` and has not
run `release_gpu`.  This includes `doneLeak` (the call returned on the
lines-96-102 path without releasing) and the handler entered while
holding. -/
def holderB (t : Thread) : Bool :=
  match t.phase with
  | .computing => true
  | .releasing _ => true
  | .doneLeak _ => true
  | .handler held => held
  | _ => false

/-- Holder or about to acquire (passed the loop guard). -/
def critB (t : Thread) : Bool :=
  match t.phase with
  | .toAcquire => true
  | _ => holderB t

/-- Phases before the call's `acquire_gpu` (used to show no ticket is
ever logged twice in the ghost acquisition log). -/
def preB (t : Thread) : Bool :=
  match t.phase with
  | .waiting _ => true
  | .toAcquire => true
  | _ => false

/-- The fixed shape of the `RpcResult` a finished call carries:
`doneLeak` always comes from lines 96-102 (`Output()` + `INTERNAL`),
`doneFail` always from lines 124-126 (`Fail`/`Fail`/`-1`, no status code),
`doneOk` never sets a status code or details. -/
def PayloadOK (t : Thread) : Prop :=
  (∀ r, t.phase = Phase.doneLeak r → r.out = emptyOutput ∧ r.code = some StatusCode.INTERNAL) ∧
  (∀ r, t.phase = Phase.doneFail r → r = failResult) ∧
  (∀ r, t.phase = Phase.doneOk r → r.code = none ∧ r.details = none)

/-- The inductive invariant of the reachable states of the service,
over the globals `g`, the thread pool `ths` and the ghost log `log`. -/
structure SysInv (g : GpuState) (ths : List Thread) (log : List Int) : Prop where
  qSorted : g.GPU_QUEUE.Sorted (· < ·)
  qBound : ∀ q ∈ g.GPU_QUEUE, q ≤ g.GPU_QUEUE_ID
  tBound : ∀ th ∈ ths, ∀ k, th.ticket = some k → k ≤ g.GPU_QUEUE_ID
  tNodup : (ths.filterMap Thread.ticket).Nodup
  inQ : ∀ th ∈ ths, inQPhase th.phase = true →
    ∃ k, th.ticket = some k ∧ k ∈ g.GPU_QUEUE
  outQ : ∀ th ∈ ths, outQPhase th.phase = true →
    ∀ k, th.ticket = some k → k ∉ g.GPU_QUEUE
  busyIff : g.GPU_DEVICE_BUSY = true ↔ ∃ th ∈ ths, holderB th = true
  critCount : ths.countP critB ≤ 1
  critHead : ∀ th ∈ ths, critB th = true → g.GPU_QUEUE.head? = th.ticket
  toAcqFree : ∀ th ∈ ths, th.phase = Phase.toAcquire → g.GPU_DEVICE_BUSY = false
  logSorted : log.Sorted (· < ·)
  logBound : ∀ u ∈ log, u ≤ g.GPU_QUEUE_ID
  logQle : ∀ u ∈ log, ∀ q ∈ g.GPU_QUEUE, u ≤ q
  preNotLogged : ∀ th ∈ ths, preB th = true → ∀ k, th.ticket = some k → k ∉ log
  payload : ∀ th ∈ ths, PayloadOK th

/- ### small list / state lemmas -/

lemma mem_of_side {z t : Thread} {l1 l2 : List Thread} (hz : z ∈ l1 ∨ z ∈ l2) :
    z ∈ l1 ++ t :: l2 := by
  rcases hz with h | h <;> simp [h]

lemma mem_split {z t : Thread} {l1 l2 : List Thread} :
    z ∈ l1 ++ t :: l2 ↔ z ∈ l1 ∨ z = t ∨ z ∈ l2 := by
  simp [List.mem_append, List.mem_cons]

lemma filterMap_replace (l1 l2 : List Thread) (t t2 : Thread)
    (htk : t2.ticket = t.ticket) :
    (l1 ++ t2 :: l2).filterMap Thread.ticket = (l1 ++ t :: l2).filterMap Thread.ticket := by
  simp [List.filterMap_append, List.filterMap_cons, htk]

lemma ticket_clash {t z : Thread} {l1 l2 : List Thread} {k : Int}
    (hnd : ((l1 ++ t :: l2).filterMap Thread.ticket).Nodup)
    (ht : t.ticket = some k) (hz : z ∈ l1 ∨ z ∈ l2) (hzk : z.ticket = some k) : False := by
  simp only [List.filterMap_append, List.filterMap_cons, ht] at hnd
  have hnd2 := List.nodup_middle.mp hnd
  have hk : k ∈ l1.filterMap Thread.ticket ++ l2.filterMap Thread.ticket := by
    rcases hz with h | h
    · exact List.mem_append_left _ (List.mem_filterMap.mpr ⟨z, h, hzk⟩)
    · exact List.mem_append_right _ (List.mem_filterMap.mpr ⟨z, h, hzk⟩)
  exact (List.nodup_cons.mp hnd2).1 hk

lemma countP_split (p : Thread → Bool) (l1 l2 : List Thread) (t : Thread) :
    (l1 ++ t :: l2).countP p =
      l1.countP p + l2.countP p + (if p t = true then 1 else 0) := by
  cases h : p t <;> simp [List.countP_append, List.countP_cons, h] <;> omega

lemma countP_split_true (p : Thread → Bool) (l1 l2 : List Thread) (t : Thread)
    (hp : p t = true) :
    (l1 ++ t :: l2).countP p = l1.countP p + l2.countP p + 1 := by
  simp [List.countP_append, List.countP_cons, hp]
  omega

lemma countP_split_false (p : Thread → Bool) (l1 l2 : List Thread) (t : Thread)
    (hp : p t = false) :
    (l1 ++ t :: l2).countP p = l1.countP p + l2.countP p := by
  simp [List.countP_append, List.countP_cons, hp]

lemma two_mem_countP {p : Thread → Bool} {l1 l2 : List Thread} {t z : Thread}
    (hle : (l1 ++ t :: l2).countP p ≤ 1) (hz : z ∈ l1 ∨ z ∈ l2)
    (hpz : p z = true) (hpt : p t = true) : False := by
  rw [countP_split, hpt] at hle
  simp only [if_pos] at hle
  have h1 : l1.countP p = 0 := by omega
  have h2 : l2.countP p = 0 := by omega
  rcases hz with h | h
  · have := List.countP_eq_zero.mp h1 z h
    simp [hpz] at this
  · have := List.countP_eq_zero.mp h2 z h
    simp [hpz] at this

lemma exists_mem_replace (p : Thread → Bool) (l1 l2 : List Thread) (t t2 : Thread)
    (h : p t2 = p t) :
    (∃ z ∈ l1 ++ t2 :: l2, p z = true) ↔ ∃ z ∈ l1 ++ t :: l2, p z = true := by
  constructor
  · rintro ⟨z, hz, hpz⟩
    rcases mem_split.mp hz with h1 | h1 | h1
    · exact ⟨z, mem_of_side (Or.inl h1), hpz⟩
    · exact ⟨t, by simp, by rw [← h, ← h1]; exact hpz⟩
    · exact ⟨z, mem_of_side (Or.inr h1), hpz⟩
  · rintro ⟨z, hz, hpz⟩
    rcases mem_split.mp hz with h1 | h1 | h1
    · exact ⟨z, mem_of_side (Or.inl h1), hpz⟩
    · exact ⟨t2, by simp, by rw [h, ← h1]; exact hpz⟩
    · exact ⟨z, mem_of_side (Or.inr h1), hpz⟩

lemma head?_append_left {l1 : List Int} (l2 : List Int) (h : l1 ≠ []) :
    (l1 ++ l2).head? = l1.head? := by
  cases l1 with
  | nil => exact absurd rfl h
  | cons x xs => rfl

lemma sorted_head?_le {l : List Int} (h : l.Sorted (· < ·)) {y x : Int}
    (hy : l.head? = some y) (hx : x ∈ l) : y ≤ x := by
  cases l with
  | nil => cases hx
  | cons a as =>
    have ha : a = y := by simpa using hy
    subst ha
    rcases List.mem_cons.mp hx with h1 | h2
    · omega
    · exact le_of_lt (List.rel_of_sorted_cons h x h2)

lemma erase_head?_of_ne {l : List Int} {x : Int} (hhd : l.head? ≠ some x) :
    (l.erase x).head? = l.head? := by
  cases l with
  | nil => rfl
  | cons a as =>
    have hax : ¬ (a == x) := by
      simp only [beq_iff_eq]
      intro he; exact hhd (by simp [he])
    rw [List.erase_cons_tail hax]
    rfl

lemma sorted_append_one {l : List Int} {a : Int} (hl : l.Sorted (· < ·))
    (hb : ∀ u ∈ l, u < a) : (l ++ [a]).Sorted (· < ·) := by
  refine List.pairwise_append.mpr ⟨hl, List.sorted_singleton a, ?_⟩
  intro u hu b hb2
  simp only [List.mem_singleton] at hb2
  subst hb2
  exact hb u hu

lemma remove_eq_some_iff {k : Int} {g g2 : GpuState} :
    remove_from_queue k g = some g2 ↔
      k ∈ g.GPU_QUEUE ∧
        g2 = ⟨g.GPU_DEVICE_BUSY, g.GPU_QUEUE.erase k, g.GPU_QUEUE_ID⟩ := by
  unfold remove_from_queue
  split
  · simp_all [eq_comm]
  · simp_all

lemma remove_eq_none_iff {k : Int} {g : GpuState} :
    remove_from_queue k g = none ↔ k ∉ g.GPU_QUEUE := by
  unfold remove_from_queue
  split <;> simp_all

lemma release_eq_some_iff {k : Int} {g g2 : GpuState} :
    release_gpu k g = some g2 ↔
      k ∈ g.GPU_QUEUE ∧ g2 = ⟨false, g.GPU_QUEUE.erase k, g.GPU_QUEUE_ID⟩ := by
  unfold release_gpu
  cases hr : remove_from_queue k g with
  | none =>
    simp [remove_eq_none_iff.mp hr]
  | some gr =>
    obtain ⟨hk, hgr⟩ := remove_eq_some_iff.mp hr
    subst hgr
    simp [hk, eq_comm]

lemma release_eq_none_iff {k : Int} {g : GpuState} :
    release_gpu k g = none ↔ k ∉ g.GPU_QUEUE := by
  unfold release_gpu
  cases hr : remove_from_queue k g with
  | none => simp [remove_eq_none_iff.mp hr]
  | some gr => simp [(remove_eq_some_iff.mp hr).1]

lemma waitCond_false_iff {g : GpuState} {k : Int} :
    waitCond g k = false ↔
      g.GPU_DEVICE_BUSY = false ∧ g.GPU_QUEUE.head? = some k := by
  simp [waitCond]

lemma acqAppend_of_ne {t : Thread} (h : t.phase ≠ Phase.toAcquire)
    (t2 : Thread) (log : List Int) : acqAppend t t2 log = log := by
  unfold acqAppend
  cases hph : t.phase <;> first | rfl | exact absurd hph h

/-- Invariant preservation for a step that leaves the globals and the
ghost log unchanged and only moves the stepping thread's program counter
(keeping its ticket). -/
lemma sysInv_silent {g : GpuState} {l1 l2 : List Thread} {t t2 : Thread} {log : List Int}
    (inv : SysInv g (l1 ++ t :: l2) log)
    (htk : t2.ticket = t.ticket)
    (hinq : inQPhase t2.phase = true → ∃ k, t2.ticket = some k ∧ k ∈ g.GPU_QUEUE)
    (houtq : outQPhase t2.phase = true → ∀ k, t2.ticket = some k → k ∉ g.GPU_QUEUE)
    (hhold : holderB t2 = holderB t)
    (hcrit : critB t2 = critB t)
    (hpre : preB t2 = true → preB t = true)
    (hnotacq : t2.phase ≠ Phase.toAcquire)
    (hpay : PayloadOK t2) :
    SysInv g (l1 ++ t2 :: l2) log := by
  have hmemt : t ∈ l1 ++ t :: l2 := by simp
  refine ⟨inv.qSorted, inv.qBound, ?_, ?_, ?_, ?_, ?_, ?_, ?_, ?_, inv.logSorted,
    inv.logBound, inv.logQle, ?_, ?_⟩
  · -- tBound
    intro z hz k hk
    rcases mem_split.mp hz with h | h | h
    · exact inv.tBound z (mem_of_side (Or.inl h)) k hk
    · subst h; exact inv.tBound t hmemt k (htk ▸ hk)
    · exact inv.tBound z (mem_of_side (Or.inr h)) k hk
  · -- tNodup
    rw [filterMap_replace l1 l2 t t2 htk]
    exact inv.tNodup
  · -- inQ
    intro z hz hph
    rcases mem_split.mp hz with h | h | h
    · exact inv.inQ z (mem_of_side (Or.inl h)) hph
    · subst h; exact hinq hph
    · exact inv.inQ z (mem_of_side (Or.inr h)) hph
  · -- outQ
    intro z hz hph k hk
    rcases mem_split.mp hz with h | h | h
    · exact inv.outQ z (mem_of_side (Or.inl h)) hph k hk
    · subst h; exact houtq hph k hk
    · exact inv.outQ z (mem_of_side (Or.inr h)) hph k hk
  · -- busyIff
    exact inv.busyIff.trans (exists_mem_replace holderB l1 l2 t t2 hhold).symm
  · -- critCount
    have h1 := inv.critCount
    rw [countP_split] at h1 ⊢
    rw [hcrit]
    exact h1
  · -- critHead
    intro z hz hc
    rcases mem_split.mp hz with h | h | h
    · exact inv.critHead z (mem_of_side (Or.inl h)) hc
    · subst h
      rw [htk]
      exact inv.critHead t hmemt (hcrit ▸ hc)
    · exact inv.critHead z (mem_of_side (Or.inr h)) hc
  · -- toAcqFree
    intro z hz hph
    rcases mem_split.mp hz with h | h | h
    · exact inv.toAcqFree z (mem_of_side (Or.inl h)) hph
    · subst h; exact absurd hph hnotacq
    · exact inv.toAcqFree z (mem_of_side (Or.inr h)) hph
  · -- preNotLogged
    intro z hz hph k hk
    rcases mem_split.mp hz with h | h | h
    · exact inv.preNotLogged z (mem_of_side (Or.inl h)) hph k hk
    · subst h; exact inv.preNotLogged t hmemt (hpre hph) k (htk ▸ hk)
    · exact inv.preNotLogged z (mem_of_side (Or.inr h)) hph k hk
  · -- payload
    intro z hz
    rcases mem_split.mp hz with h | h | h
    · exact inv.payload z (mem_of_side (Or.inl h))
    · subst h; exact hpay
    · exact inv.payload z (mem_of_side (Or.inr h))

/-- The invariant holds at service start. -/
lemma sysInv_init (n : Nat) :
    SysInv ⟨false, [], -1⟩ (List.replicate n ⟨Phase.entry, none⟩) [] := by
  have hth : ∀ th ∈ List.replicate n (⟨Phase.entry, none⟩ : Thread),
      th = (⟨Phase.entry, none⟩ : Thread) := by
    intro th hth
    exact List.eq_of_mem_replicate hth
  refine ⟨?_, ?_, ?_, ?_, ?_, ?_, ?_, ?_, ?_, ?_, ?_, ?_, ?_, ?_, ?_⟩
  · exact List.sorted_nil
  · intro q hq; cases hq
  · intro th hmem k hk
    rw [hth th hmem] at hk
    cases hk
  · have : (List.replicate n (⟨Phase.entry, none⟩ : Thread)).filterMap Thread.ticket = [] := by
      rw [List.filterMap_eq_nil_iff]
      intro th hmem
      rw [hth th hmem]
    rw [this]
    exact List.nodup_nil
  · intro th hmem hph
    rw [hth th hmem] at hph
    simp [inQPhase] at hph
  · intro th hmem hph
    rw [hth th hmem] at hph
    simp [outQPhase] at hph
  · constructor
    · intro h; cases h
    · rintro ⟨th, hmem, hph⟩
      rw [hth th hmem] at hph
      simp [holderB] at hph
  · have : (List.replicate n (⟨Phase.entry, none⟩ : Thread)).countP critB = 0 := by
      apply List.countP_eq_zero.mpr
      intro th hmem
      rw [hth th hmem]
      decide
    rw [this]
    omega
  · intro th hmem hc
    rw [hth th hmem] at hc
    simp [critB, holderB] at hc
  · intro th hmem hph
    rw [hth th hmem] at hph
  · exact List.sorted_nil
  · intro u hu; cases hu
  · intro u hu; cases hu
  · intro th hmem hph
    rw [hth th hmem] at hph
    simp [preB] at hph
  · intro th hmem
    rw [hth th hmem]
    refine ⟨?_, ?_, ?_⟩ <;> intro r hr <;> cases hr

/-- Every step of the service preserves the invariant. -/
theorem sysInv_step {g g2 : GpuState} {ths ths2 : List Thread} {log log2 : List Int}
    (hstep : Step ⟨g, ths, log⟩ ⟨g2, ths2, log2⟩)
    (inv : SysInv g ths log) : SysInv g2 ths2 log2 := by
  cases hstep with
  | mk g3 g4 l1 l2 t t2 log3 hts =>
    cases hts with
    | enter =>
      have hmemt : (⟨Phase.entry, none⟩ : Thread) ∈ l1 ++ (⟨Phase.entry, none⟩ : Thread) :: l2 := by
        simp
      show SysInv ⟨g.GPU_DEVICE_BUSY, g.GPU_QUEUE ++ [g.GPU_QUEUE_ID + 1], g.GPU_QUEUE_ID + 1⟩
        (l1 ++ (⟨Phase.waiting 0, some (g.GPU_QUEUE_ID + 1)⟩ : Thread) :: l2) log
      refine ⟨?_, ?_, ?_, ?_, ?_, ?_, ?_, ?_, ?_, ?_, inv.logSorted, ?_, ?_, ?_, ?_⟩ <;> dsimp only
      · exact sorted_append_one inv.qSorted
          (fun u hu => by have := inv.qBound u hu; omega)
      · intro q hq
        rcases List.mem_append.mp hq with h | h
        · have := inv.qBound q h; omega
        · simp only [List.mem_singleton] at h; omega
      · intro z hz k hk
        rcases mem_split.mp hz with h | h | h
        · have := inv.tBound z (mem_of_side (Or.inl h)) k hk; omega
        · subst h
          simp only at hk
          injection hk with he
          omega
        · have := inv.tBound z (mem_of_side (Or.inr h)) k hk; omega
      · have hold : ((l1 ++ (⟨Phase.entry, none⟩ : Thread) :: l2).filterMap Thread.ticket).Nodup :=
          inv.tNodup
        simp only [List.filterMap_append, List.filterMap_cons] at hold ⊢
        refine List.nodup_middle.mpr ?_
        refine List.nodup_cons.mpr ⟨?_, by simpa using hold⟩
        intro hmem
        rcases List.mem_append.mp hmem with h | h
        · obtain ⟨z, hz, hzk⟩ := List.mem_filterMap.mp h
          have := inv.tBound z (mem_of_side (Or.inl hz)) _ hzk
          omega
        · obtain ⟨z, hz, hzk⟩ := List.mem_filterMap.mp h
          have := inv.tBound z (mem_of_side (Or.inr hz)) _ hzk
          omega
      · intro z hz hph
        rcases mem_split.mp hz with h | h | h
        · obtain ⟨k, hk, hQ⟩ := inv.inQ z (mem_of_side (Or.inl h)) hph
          exact ⟨k, hk, List.mem_append_left _ hQ⟩
        · subst h
          exact ⟨g.GPU_QUEUE_ID + 1, rfl, by simp⟩
        · obtain ⟨k, hk, hQ⟩ := inv.inQ z (mem_of_side (Or.inr h)) hph
          exact ⟨k, hk, List.mem_append_left _ hQ⟩
      · intro z hz hph k hk hmem
        rcases mem_split.mp hz with h | h | h
        · rcases List.mem_append.mp hmem with hm | hm
          · exact inv.outQ z (mem_of_side (Or.inl h)) hph k hk hm
          · simp only [List.mem_singleton] at hm
            have := inv.tBound z (mem_of_side (Or.inl h)) k hk
            omega
        · subst h; exact Bool.noConfusion hph
        · rcases List.mem_append.mp hmem with hm | hm
          · exact inv.outQ z (mem_of_side (Or.inr h)) hph k hk hm
          · simp only [List.mem_singleton] at hm
            have := inv.tBound z (mem_of_side (Or.inr h)) k hk
            omega
      · exact inv.busyIff.trans
          (exists_mem_replace holderB l1 l2 ⟨Phase.entry, none⟩
            ⟨Phase.waiting 0, some (g.GPU_QUEUE_ID + 1)⟩ rfl).symm
      · have h1 := inv.critCount
        rw [countP_split] at h1 ⊢
        exact h1
      · intro z hz hc
        rcases mem_split.mp hz with h | h | h
        · obtain ⟨k, hk, hQ⟩ := inv.inQ z (mem_of_side (Or.inl h))
            (by cases z with | mk ph tk => cases ph <;> simp_all [critB, holderB, inQPhase])
          rw [head?_append_left _ (List.ne_nil_of_mem hQ)]
          exact inv.critHead z (mem_of_side (Or.inl h)) hc
        · subst h; exact Bool.noConfusion hc
        · obtain ⟨k, hk, hQ⟩ := inv.inQ z (mem_of_side (Or.inr h))
            (by cases z with | mk ph tk => cases ph <;> simp_all [critB, holderB, inQPhase])
          rw [head?_append_left _ (List.ne_nil_of_mem hQ)]
          exact inv.critHead z (mem_of_side (Or.inr h)) hc
      · intro z hz hph
        rcases mem_split.mp hz with h | h | h
        · exact inv.toAcqFree z (mem_of_side (Or.inl h)) hph
        · subst h; cases hph
        · exact inv.toAcqFree z (mem_of_side (Or.inr h)) hph
      · intro u hu
        have := inv.logBound u hu; omega
      · intro u hu q hq
        rcases List.mem_append.mp hq with h | h
        · exact inv.logQle u hu q h
        · simp only [List.mem_singleton] at h
          have := inv.logBound u hu
          omega
      · intro z hz hph k hk
        rcases mem_split.mp hz with h | h | h
        · exact inv.preNotLogged z (mem_of_side (Or.inl h)) hph k hk
        · subst h
          simp only at hk
          injection hk with he
          intro hmem
          have := inv.logBound k hmem
          omega
        · exact inv.preNotLogged z (mem_of_side (Or.inr h)) hph k hk
      · intro z hz
        rcases mem_split.mp hz with h | h | h
        · exact inv.payload z (mem_of_side (Or.inl h))
        · subst h
          refine ⟨?_, ?_, ?_⟩ <;> intro r hr <;> cases hr
        · exact inv.payload z (mem_of_side (Or.inr h))
    | poll k c hcond =>
      refine sysInv_silent inv rfl ?_ ?_ rfl rfl ?_ ?_ ?_
      · intro _
        exact inv.inQ ⟨Phase.waiting c, some k⟩ (by simp) rfl
      · intro h; simp [outQPhase] at h
      · intro _; rfl
      · intro h; cases h
      · refine ⟨?_, ?_, ?_⟩ <;> intro r hr <;> cases hr
    | waitFault k c =>
      refine sysInv_silent inv rfl ?_ ?_ rfl rfl ?_ ?_ ?_
      · intro h; simp [inQPhase] at h
      · intro h; simp [outQPhase] at h
      · intro h; simp [preB] at h
      · intro h; cases h
      · refine ⟨?_, ?_, ?_⟩ <;> intro r hr <;> cases hr
    | exitLoop k c hcond =>
      obtain ⟨hbusy, hhd⟩ := waitCond_false_iff.mp hcond
      have hmemt : (⟨Phase.waiting c, some k⟩ : Thread) ∈
          l1 ++ (⟨Phase.waiting c, some k⟩ : Thread) :: l2 := by simp
      refine ⟨inv.qSorted, inv.qBound, ?_, ?_, ?_, ?_, ?_, ?_, ?_, ?_, inv.logSorted,
        inv.logBound, inv.logQle, ?_, ?_⟩ <;> dsimp only
      · intro z hz k2 hk
        rcases mem_split.mp hz with h | h | h
        · exact inv.tBound z (mem_of_side (Or.inl h)) k2 hk
        · subst h; exact inv.tBound _ hmemt k2 hk
        · exact inv.tBound z (mem_of_side (Or.inr h)) k2 hk
      · rw [filterMap_replace l1 l2 ⟨Phase.waiting c, some k⟩ ⟨Phase.toAcquire, some k⟩ rfl]
        exact inv.tNodup
      · intro z hz hph
        rcases mem_split.mp hz with h | h | h
        · exact inv.inQ z (mem_of_side (Or.inl h)) hph
        · subst h; exact inv.inQ ⟨Phase.waiting c, some k⟩ hmemt rfl
        · exact inv.inQ z (mem_of_side (Or.inr h)) hph
      · intro z hz hph k2 hk
        rcases mem_split.mp hz with h | h | h
        · exact inv.outQ z (mem_of_side (Or.inl h)) hph k2 hk
        · subst h; exact Bool.noConfusion hph
        · exact inv.outQ z (mem_of_side (Or.inr h)) hph k2 hk
      · constructor
        · intro h; rw [hbusy] at h; cases h
        · rintro ⟨z, hz, hold⟩
          rcases mem_split.mp hz with h | h | h
          · have := inv.busyIff.mpr ⟨z, mem_of_side (Or.inl h), hold⟩
            rw [hbusy] at this; cases this
          · subst h; exact Bool.noConfusion hold
          · have := inv.busyIff.mpr ⟨z, mem_of_side (Or.inr h), hold⟩
            rw [hbusy] at this; cases this
      · rw [countP_split]
        have hz1 : l1.countP critB = 0 := by
          apply List.countP_eq_zero.mpr
          intro z hz
          cases hcb : critB z with
          | false => exact fun h2 => Bool.noConfusion h2
          | true =>
            exfalso
            have hzk := inv.critHead z (mem_of_side (Or.inl hz)) hcb
            rw [hhd] at hzk
            exact ticket_clash inv.tNodup rfl (Or.inl hz) hzk.symm
        have hz2 : l2.countP critB = 0 := by
          apply List.countP_eq_zero.mpr
          intro z hz
          cases hcb : critB z with
          | false => exact fun h2 => Bool.noConfusion h2
          | true =>
            exfalso
            have hzk := inv.critHead z (mem_of_side (Or.inr hz)) hcb
            rw [hhd] at hzk
            exact ticket_clash inv.tNodup rfl (Or.inr hz) hzk.symm
        rw [hz1, hz2]
        simp [critB]
      · intro z hz hc
        rcases mem_split.mp hz with h | h | h
        · exact inv.critHead z (mem_of_side (Or.inl h)) hc
        · subst h; exact hhd
        · exact inv.critHead z (mem_of_side (Or.inr h)) hc
      · intro z hz hph
        exact hbusy
      · intro z hz hph k2 hk
        rcases mem_split.mp hz with h | h | h
        · exact inv.preNotLogged z (mem_of_side (Or.inl h)) hph k2 hk
        · subst h; exact inv.preNotLogged ⟨Phase.waiting c, some k⟩ hmemt rfl k2 hk
        · exact inv.preNotLogged z (mem_of_side (Or.inr h)) hph k2 hk
      · intro z hz
        rcases mem_split.mp hz with h | h | h
        · exact inv.payload z (mem_of_side (Or.inl h))
        · subst h
          refine ⟨?_, ?_, ?_⟩ <;> intro r hr <;> cases hr
        · exact inv.payload z (mem_of_side (Or.inr h))
    | acquire k =>
      have hmemt : (⟨Phase.toAcquire, some k⟩ : Thread) ∈
          l1 ++ (⟨Phase.toAcquire, some k⟩ : Thread) :: l2 := by simp
      have hkQ : k ∈ g.GPU_QUEUE := by
        obtain ⟨k2, hk2, hQ⟩ := inv.inQ _ hmemt rfl
        simp only at hk2
        injection hk2 with he
        rw [he]; exact hQ
      have hhd : g.GPU_QUEUE.head? = some k := inv.critHead _ hmemt rfl
      have hlog : k ∉ log := inv.preNotLogged _ hmemt rfl k rfl
      show SysInv ⟨true, g.GPU_QUEUE, g.GPU_QUEUE_ID⟩
        (l1 ++ (⟨Phase.computing, some k⟩ : Thread) :: l2) (log ++ [k])
      refine ⟨inv.qSorted, inv.qBound, ?_, ?_, ?_, ?_, ?_, ?_, ?_, ?_, ?_, ?_, ?_, ?_, ?_⟩ <;>
        dsimp only
      · intro z hz k2 hk
        rcases mem_split.mp hz with h | h | h
        · exact inv.tBound z (mem_of_side (Or.inl h)) k2 hk
        · subst h; exact inv.tBound _ hmemt k2 hk
        · exact inv.tBound z (mem_of_side (Or.inr h)) k2 hk
      · rw [filterMap_replace l1 l2 ⟨Phase.toAcquire, some k⟩ ⟨Phase.computing, some k⟩ rfl]
        exact inv.tNodup
      · intro z hz hph
        rcases mem_split.mp hz with h | h | h
        · exact inv.inQ z (mem_of_side (Or.inl h)) hph
        · subst h; exact ⟨k, rfl, hkQ⟩
        · exact inv.inQ z (mem_of_side (Or.inr h)) hph
      · intro z hz hph k2 hk
        rcases mem_split.mp hz with h | h | h
        · exact inv.outQ z (mem_of_side (Or.inl h)) hph k2 hk
        · subst h; exact Bool.noConfusion hph
        · exact inv.outQ z (mem_of_side (Or.inr h)) hph k2 hk
      · constructor
        · intro _
          exact ⟨⟨Phase.computing, some k⟩, by simp, rfl⟩
        · intro _; rfl
      · have h1 := inv.critCount
        rw [countP_split] at h1 ⊢
        exact h1
      · intro z hz hc
        rcases mem_split.mp hz with h | h | h
        · exact inv.critHead z (mem_of_side (Or.inl h)) hc
        · subst h; exact hhd
        · exact inv.critHead z (mem_of_side (Or.inr h)) hc
      · intro z hz hph
        rcases mem_split.mp hz with h | h | h
        · exfalso
          have hcz : critB z = true := by
            cases z with
            | mk ph tk =>
              dsimp only at hph
              subst hph
              rfl
          exact two_mem_countP inv.critCount (Or.inl h) hcz rfl
        · subst h; exact Phase.noConfusion hph
        · exfalso
          have hcz : critB z = true := by
            cases z with
            | mk ph tk =>
              dsimp only at hph
              subst hph
              rfl
          exact two_mem_countP inv.critCount (Or.inr h) hcz rfl
      · refine sorted_append_one inv.logSorted ?_
        intro u hu
        have h1 : u ≤ k := inv.logQle u hu k hkQ
        have h2 : u ≠ k := fun he => hlog (he ▸ hu)
        omega
      · intro u hu
        rcases List.mem_append.mp hu with h | h
        · exact inv.logBound u h
        · simp only [List.mem_singleton] at h
          subst h
          exact inv.tBound _ hmemt u rfl
      · intro u hu q hq
        rcases List.mem_append.mp hu with h | h
        · exact inv.logQle u h q hq
        · simp only [List.mem_singleton] at h
          subst h
          exact sorted_head?_le inv.qSorted hhd hq
      · intro z hz hph k2 hk
        rcases mem_split.mp hz with h | h | h
        · intro hmem
          rcases List.mem_append.mp hmem with hm | hm
          · exact inv.preNotLogged z (mem_of_side (Or.inl h)) hph k2 hk hm
          · simp only [List.mem_singleton] at hm
            subst hm
            exact ticket_clash inv.tNodup rfl (Or.inl h) hk
        · subst h; exact Bool.noConfusion hph
        · intro hmem
          rcases List.mem_append.mp hmem with hm | hm
          · exact inv.preNotLogged z (mem_of_side (Or.inr h)) hph k2 hk hm
          · simp only [List.mem_singleton] at hm
            subst hm
            exact ticket_clash inv.tNodup rfl (Or.inr h) hk
      · intro z hz
        rcases mem_split.mp hz with h | h | h
        · exact inv.payload z (mem_of_side (Or.inl h))
        · subst h
          refine ⟨?_, ?_, ?_⟩ <;> intro r hr <;> cases hr
        · exact inv.payload z (mem_of_side (Or.inr h))
    | computeBad k msg =>
      refine sysInv_silent inv rfl ?_ ?_ rfl rfl ?_ ?_ ?_
      · intro _
        exact inv.inQ ⟨Phase.computing, some k⟩ (by simp) rfl
      · intro h; simp [outQPhase] at h
      · intro h; simp [preB] at h
      · intro h; cases h
      · refine ⟨?_, ?_, ?_⟩
        · intro r hr; cases hr; exact ⟨rfl, rfl⟩
        · intro r hr; cases hr
        · intro r hr; cases hr
    | computeGood k d herr =>
      refine sysInv_silent inv rfl ?_ ?_ rfl rfl ?_ ?_ ?_
      · intro _
        exact inv.inQ ⟨Phase.computing, some k⟩ (by simp) rfl
      · intro h; simp [outQPhase] at h
      · intro h; simp [preB] at h
      · intro h; cases h
      · refine ⟨?_, ?_, ?_⟩ <;> intro r hr <;> cases hr
    | computeFault k =>
      refine sysInv_silent inv rfl ?_ ?_ rfl rfl ?_ ?_ ?_
      · intro _
        exact inv.inQ ⟨Phase.computing, some k⟩ (by simp) rfl
      · intro h; simp [outQPhase] at h
      · intro h; simp [preB] at h
      · intro h; cases h
      · refine ⟨?_, ?_, ?_⟩ <;> intro r hr <;> cases hr
    | release _ k d hrel =>
      obtain ⟨hkQ, hg2⟩ := release_eq_some_iff.mp hrel
      subst hg2
      have hmemt : (⟨Phase.releasing d, some k⟩ : Thread) ∈
          l1 ++ (⟨Phase.releasing d, some k⟩ : Thread) :: l2 := by simp
      refine ⟨?_, ?_, ?_, ?_, ?_, ?_, ?_, ?_, ?_, ?_, inv.logSorted, inv.logBound, ?_, ?_, ?_⟩ <;>
        dsimp only
      · exact List.Pairwise.sublist (List.erase_sublist k _) inv.qSorted
      · intro q hq
        exact inv.qBound q (List.mem_of_mem_erase hq)
      · intro z hz k2 hk
        rcases mem_split.mp hz with h | h | h
        · exact inv.tBound z (mem_of_side (Or.inl h)) k2 hk
        · subst h; exact inv.tBound _ hmemt k2 hk
        · exact inv.tBound z (mem_of_side (Or.inr h)) k2 hk
      · rw [filterMap_replace l1 l2 ⟨Phase.releasing d, some k⟩ ⟨Phase.returning d, some k⟩ rfl]
        exact inv.tNodup
      · intro z hz hph
        rcases mem_split.mp hz with h | h | h
        · obtain ⟨k2, hk2, hQ⟩ := inv.inQ z (mem_of_side (Or.inl h)) hph
          refine ⟨k2, hk2, (List.mem_erase_of_ne ?_).mpr hQ⟩
          intro he
          exact ticket_clash inv.tNodup rfl (Or.inl h) (he ▸ hk2)
        · subst h; exact Bool.noConfusion hph
        · obtain ⟨k2, hk2, hQ⟩ := inv.inQ z (mem_of_side (Or.inr h)) hph
          refine ⟨k2, hk2, (List.mem_erase_of_ne ?_).mpr hQ⟩
          intro he
          exact ticket_clash inv.tNodup rfl (Or.inr h) (he ▸ hk2)
      · intro z hz hph k2 hk
        rcases mem_split.mp hz with h | h | h
        · intro hmem
          exact inv.outQ z (mem_of_side (Or.inl h)) hph k2 hk (List.mem_of_mem_erase hmem)
        · subst h
          injection hk with he
          subst he
          exact inv.qSorted.nodup.not_mem_erase
        · intro hmem
          exact inv.outQ z (mem_of_side (Or.inr h)) hph k2 hk (List.mem_of_mem_erase hmem)
      · constructor
        · intro h; cases h
        · rintro ⟨z, hz, hold⟩
          rcases mem_split.mp hz with h | h | h
          · exfalso
            have hcz : critB z = true := by
              cases z with | mk ph tk => cases ph <;> simp_all [critB, holderB]
            exact two_mem_countP inv.critCount (Or.inl h) hcz rfl
          · subst h; exact Bool.noConfusion hold
          · exfalso
            have hcz : critB z = true := by
              cases z with | mk ph tk => cases ph <;> simp_all [critB, holderB]
            exact two_mem_countP inv.critCount (Or.inr h) hcz rfl
      · have h1 := inv.critCount
        rw [countP_split] at h1
        rw [countP_split_false critB l1 l2 ⟨Phase.returning d, some k⟩ rfl]
        omega
      · intro z hz hc
        rcases mem_split.mp hz with h | h | h
        · exact (two_mem_countP inv.critCount (Or.inl h) hc rfl).elim
        · subst h; exact Bool.noConfusion hc
        · exact (two_mem_countP inv.critCount (Or.inr h) hc rfl).elim
      · intro z hz hph
        rfl
      · intro u hu q hq
        exact inv.logQle u hu q (List.mem_of_mem_erase hq)
      · intro z hz hph k2 hk
        rcases mem_split.mp hz with h | h | h
        · exact inv.preNotLogged z (mem_of_side (Or.inl h)) hph k2 hk
        · subst h; exact Bool.noConfusion hph
        · exact inv.preNotLogged z (mem_of_side (Or.inr h)) hph k2 hk
      · intro z hz
        rcases mem_split.mp hz with h | h | h
        · exact inv.payload z (mem_of_side (Or.inl h))
        · subst h
          refine ⟨?_, ?_, ?_⟩ <;> intro r hr <;> cases hr
        · exact inv.payload z (mem_of_side (Or.inr h))
    | releaseFault k d hrel =>
      have hmemt : (⟨Phase.releasing d, some k⟩ : Thread) ∈
          l1 ++ (⟨Phase.releasing d, some k⟩ : Thread) :: l2 := by simp
      obtain ⟨k2, hk2, hQ⟩ := inv.inQ _ hmemt rfl
      simp only at hk2
      injection hk2 with he
      subst he
      exact absurd hQ (release_eq_none_iff.mp hrel)
    | returnOk k d =>
      refine sysInv_silent inv rfl ?_ ?_ rfl rfl ?_ ?_ ?_
      · intro h; simp [inQPhase] at h
      · intro _ k2 hk
        exact inv.outQ ⟨Phase.returning d, some k⟩ (by simp) rfl k2 hk
      · intro h; simp [preB] at h
      · intro h; cases h
      · refine ⟨?_, ?_, ?_⟩
        · intro r hr; cases hr
        · intro r hr; cases hr
        · intro r hr; cases hr; exact ⟨rfl, rfl⟩
    | returnFault k d =>
      refine sysInv_silent inv rfl ?_ ?_ rfl rfl ?_ ?_ ?_
      · intro h; simp [inQPhase] at h
      · intro h; simp [outQPhase] at h
      · intro h; simp [preB] at h
      · intro h; cases h
      · refine ⟨?_, ?_, ?_⟩ <;> intro r hr <;> cases hr
    | handlerHead _ held k hhd hrel =>
      obtain ⟨hkQ, hg2⟩ := release_eq_some_iff.mp hrel
      subst hg2
      have hmemt : (⟨Phase.handler held, some k⟩ : Thread) ∈
          l1 ++ (⟨Phase.handler held, some k⟩ : Thread) :: l2 := by simp
      refine ⟨?_, ?_, ?_, ?_, ?_, ?_, ?_, ?_, ?_, ?_, inv.logSorted, inv.logBound, ?_, ?_, ?_⟩ <;>
        dsimp only
      · exact List.Pairwise.sublist (List.erase_sublist k _) inv.qSorted
      · intro q hq
        exact inv.qBound q (List.mem_of_mem_erase hq)
      · intro z hz k2 hk
        rcases mem_split.mp hz with h | h | h
        · exact inv.tBound z (mem_of_side (Or.inl h)) k2 hk
        · subst h; exact inv.tBound _ hmemt k2 hk
        · exact inv.tBound z (mem_of_side (Or.inr h)) k2 hk
      · rw [filterMap_replace l1 l2 ⟨Phase.handler held, some k⟩ ⟨Phase.doneFail failResult, some k⟩ rfl]
        exact inv.tNodup
      · intro z hz hph
        rcases mem_split.mp hz with h | h | h
        · obtain ⟨k2, hk2, hQ⟩ := inv.inQ z (mem_of_side (Or.inl h)) hph
          refine ⟨k2, hk2, (List.mem_erase_of_ne ?_).mpr hQ⟩
          intro he
          exact ticket_clash inv.tNodup rfl (Or.inl h) (he ▸ hk2)
        · subst h; exact Bool.noConfusion hph
        · obtain ⟨k2, hk2, hQ⟩ := inv.inQ z (mem_of_side (Or.inr h)) hph
          refine ⟨k2, hk2, (List.mem_erase_of_ne ?_).mpr hQ⟩
          intro he
          exact ticket_clash inv.tNodup rfl (Or.inr h) (he ▸ hk2)
      · intro z hz hph k2 hk
        rcases mem_split.mp hz with h | h | h
        · intro hmem
          exact inv.outQ z (mem_of_side (Or.inl h)) hph k2 hk (List.mem_of_mem_erase hmem)
        · subst h
          injection hk with he
          subst he
          exact inv.qSorted.nodup.not_mem_erase
        · intro hmem
          exact inv.outQ z (mem_of_side (Or.inr h)) hph k2 hk (List.mem_of_mem_erase hmem)
      · constructor
        · intro h; cases h
        · rintro ⟨z, hz, hold⟩
          rcases mem_split.mp hz with h | h | h
          · have hcz : critB z = true := by
              cases z with | mk ph tk => cases ph <;> simp_all [critB, holderB]
            have hzk := inv.critHead z (mem_of_side (Or.inl h)) hcz
            rw [hhd] at hzk
            exact absurd hzk.symm
              (fun hc => ticket_clash inv.tNodup rfl (Or.inl h) hc)
          · subst h; exact Bool.noConfusion hold
          · have hcz : critB z = true := by
              cases z with | mk ph tk => cases ph <;> simp_all [critB, holderB]
            have hzk := inv.critHead z (mem_of_side (Or.inr h)) hcz
            rw [hhd] at hzk
            exact absurd hzk.symm
              (fun hc => ticket_clash inv.tNodup rfl (Or.inr h) hc)
      · have h1 := inv.critCount
        rw [countP_split] at h1
        rw [countP_split_false critB l1 l2 ⟨Phase.doneFail failResult, some k⟩ rfl]
        omega
      · intro z hz hc
        rcases mem_split.mp hz with h | h | h
        · have hzk := inv.critHead z (mem_of_side (Or.inl h)) hc
          rw [hhd] at hzk
          exact absurd hzk.symm
            (fun hc2 => ticket_clash inv.tNodup rfl (Or.inl h) hc2)
        · subst h; exact Bool.noConfusion hc
        · have hzk := inv.critHead z (mem_of_side (Or.inr h)) hc
          rw [hhd] at hzk
          exact absurd hzk.symm
            (fun hc2 => ticket_clash inv.tNodup rfl (Or.inr h) hc2)
      · intro z hz hph
        rfl
      · intro u hu q hq
        exact inv.logQle u hu q (List.mem_of_mem_erase hq)
      · intro z hz hph k2 hk
        rcases mem_split.mp hz with h | h | h
        · exact inv.preNotLogged z (mem_of_side (Or.inl h)) hph k2 hk
        · subst h; exact Bool.noConfusion hph
        · exact inv.preNotLogged z (mem_of_side (Or.inr h)) hph k2 hk
      · intro z hz
        rcases mem_split.mp hz with h | h | h
        · exact inv.payload z (mem_of_side (Or.inl h))
        · subst h
          refine ⟨?_, ?_, ?_⟩
          · intro r hr; cases hr
          · intro r hr; cases hr; rfl
          · intro r hr; cases hr
        · exact inv.payload z (mem_of_side (Or.inr h))
    | handlerRemove _ held k hne hhd hrem =>
      obtain ⟨hkQ, hg2⟩ := remove_eq_some_iff.mp hrem
      subst hg2
      have hmemt : (⟨Phase.handler held, some k⟩ : Thread) ∈
          l1 ++ (⟨Phase.handler held, some k⟩ : Thread) :: l2 := by simp
      cases held with
      | true =>
        exact absurd (inv.critHead _ hmemt rfl) hhd
      | false =>
        refine ⟨?_, ?_, ?_, ?_, ?_, ?_, ?_, ?_, ?_, ?_, inv.logSorted, inv.logBound, ?_, ?_, ?_⟩ <;>
          dsimp only
        · exact List.Pairwise.sublist (List.erase_sublist k _) inv.qSorted
        · intro q hq
          exact inv.qBound q (List.mem_of_mem_erase hq)
        · intro z hz k2 hk
          rcases mem_split.mp hz with h | h | h
          · exact inv.tBound z (mem_of_side (Or.inl h)) k2 hk
          · subst h; exact inv.tBound _ hmemt k2 hk
          · exact inv.tBound z (mem_of_side (Or.inr h)) k2 hk
        · rw [filterMap_replace l1 l2 ⟨Phase.handler false, some k⟩ ⟨Phase.doneFail failResult, some k⟩ rfl]
          exact inv.tNodup
        · intro z hz hph
          rcases mem_split.mp hz with h | h | h
          · obtain ⟨k2, hk2, hQ⟩ := inv.inQ z (mem_of_side (Or.inl h)) hph
            refine ⟨k2, hk2, (List.mem_erase_of_ne ?_).mpr hQ⟩
            intro he
            exact ticket_clash inv.tNodup rfl (Or.inl h) (he ▸ hk2)
          · subst h; exact Bool.noConfusion hph
          · obtain ⟨k2, hk2, hQ⟩ := inv.inQ z (mem_of_side (Or.inr h)) hph
            refine ⟨k2, hk2, (List.mem_erase_of_ne ?_).mpr hQ⟩
            intro he
            exact ticket_clash inv.tNodup rfl (Or.inr h) (he ▸ hk2)
        · intro z hz hph k2 hk
          rcases mem_split.mp hz with h | h | h
          · intro hmem
            exact inv.outQ z (mem_of_side (Or.inl h)) hph k2 hk (List.mem_of_mem_erase hmem)
          · subst h
            injection hk with he
            subst he
            exact inv.qSorted.nodup.not_mem_erase
          · intro hmem
            exact inv.outQ z (mem_of_side (Or.inr h)) hph k2 hk (List.mem_of_mem_erase hmem)
        · exact inv.busyIff.trans
            (exists_mem_replace holderB l1 l2 ⟨Phase.handler false, some k⟩
              ⟨Phase.doneFail failResult, some k⟩ rfl).symm
        · have h1 := inv.critCount
          rw [countP_split] at h1
          rw [countP_split_false critB l1 l2 ⟨Phase.doneFail failResult, some k⟩ rfl]
          omega
        · intro z hz hc
          rcases mem_split.mp hz with h | h | h
          · rw [erase_head?_of_ne hhd]
            exact inv.critHead z (mem_of_side (Or.inl h)) hc
          · subst h; exact Bool.noConfusion hc
          · rw [erase_head?_of_ne hhd]
            exact inv.critHead z (mem_of_side (Or.inr h)) hc
        · intro z hz hph
          rcases mem_split.mp hz with h | h | h
          · exact inv.toAcqFree z (mem_of_side (Or.inl h)) hph
          · subst h; cases hph
          · exact inv.toAcqFree z (mem_of_side (Or.inr h)) hph
        · intro u hu q hq
          exact inv.logQle u hu q (List.mem_of_mem_erase hq)
        · intro z hz hph k2 hk
          rcases mem_split.mp hz with h | h | h
          · exact inv.preNotLogged z (mem_of_side (Or.inl h)) hph k2 hk
          · subst h; exact Bool.noConfusion hph
          · exact inv.preNotLogged z (mem_of_side (Or.inr h)) hph k2 hk
        · intro z hz
          rcases mem_split.mp hz with h | h | h
          · exact inv.payload z (mem_of_side (Or.inl h))
          · subst h
            refine ⟨?_, ?_, ?_⟩
            · intro r hr; cases hr
            · intro r hr; cases hr; rfl
            · intro r hr; cases hr
          · exact inv.payload z (mem_of_side (Or.inr h))
    | handlerRemoveFault held k hne hhd hrem =>
      have hnotQ : k ∉ g.GPU_QUEUE := remove_eq_none_iff.mp hrem
      cases held with
      | true =>
        have hmemt : (⟨Phase.handler true, some k⟩ : Thread) ∈
            l1 ++ (⟨Phase.handler true, some k⟩ : Thread) :: l2 := by simp
        obtain ⟨k2, hk2, hQ⟩ := inv.inQ _ hmemt rfl
        simp only at hk2
        injection hk2 with he
        subst he
        exact absurd hQ hnotQ
      | false =>
        refine sysInv_silent inv rfl ?_ ?_ rfl rfl ?_ ?_ ?_
        · intro h; simp [inQPhase] at h
        · intro _ k2 hk
          injection hk with he
          subst he
          exact hnotQ
        · intro h; simp [preB] at h
        · intro h; cases h
        · refine ⟨?_, ?_, ?_⟩ <;> intro r hr <;> cases hr
    | handlerEmpty held k hq =>
      cases held with
      | true =>
        have hmemt : (⟨Phase.handler true, some k⟩ : Thread) ∈
            l1 ++ (⟨Phase.handler true, some k⟩ : Thread) :: l2 := by simp
        obtain ⟨k2, hk2, hQ⟩ := inv.inQ _ hmemt rfl
        rw [hq] at hQ
        cases hQ
      | false =>
        refine sysInv_silent inv rfl ?_ ?_ rfl rfl ?_ ?_ ?_
        · intro h; simp [inQPhase] at h
        · intro _ k2 hk
          rw [hq]
          simp
        · intro h; simp [preB] at h
        · intro h; cases h
        · refine ⟨?_, ?_, ?_⟩ <;> intro r hr <;> cases hr

/-- Every reachable state of the service satisfies the invariant. -/
theorem reachable_sysInv {n : Nat} {s : SysState} (h : Reachable n s) :
    SysInv s.gpu s.threads s.acqLog := by
  induction h with
  | refl => exact sysInv_init n
  | tail hsteps hstep ih =>
    rename_i b c
    obtain ⟨gb, thsb, logb⟩ := b
    obtain ⟨gc, thsc, logc⟩ := c
    exact sysInv_step hstep ih

/- ### Concrete executions of the service (single worker call).
These finite traces exercise the paths of `forecast` that the claims are
about: the leaking response-check failure (lines 96-102), the handler
path (lines 118-126), and an exception after `release_gpu` while the
success `Output` is being built (lines 113-116). -/

/-- After `get_gpu_queue_id`: ticket 0 issued and queued. -/
lemma reach_wait :
    Reachable 1 ⟨⟨false, [0], 0⟩, [⟨Phase.waiting 0, some 0⟩], []⟩ :=
  Relation.ReflTransGen.single
    (Step.mk ⟨false, [], -1⟩ ⟨false, [0], 0⟩ [] [] ⟨Phase.entry, none⟩
      ⟨Phase.waiting 0, some 0⟩ [] (ThreadStep.enter ⟨false, [], -1⟩))

/-- The loop guard is false (device free, ticket 0 at the head). -/
lemma reach_toAcq :
    Reachable 1 ⟨⟨false, [0], 0⟩, [⟨Phase.toAcquire, some 0⟩], []⟩ :=
  reach_wait.tail
    (Step.mk ⟨false, [0], 0⟩ ⟨false, [0], 0⟩ [] [] ⟨Phase.waiting 0, some 0⟩
      ⟨Phase.toAcquire, some 0⟩ [] (ThreadStep.exitLoop ⟨false, [0], 0⟩ 0 0 (by decide)))

/-- After `acquire_gpu`: the call holds the device. -/
lemma reach_computing :
    Reachable 1 ⟨⟨true, [0], 0⟩, [⟨Phase.computing, some 0⟩], [0]⟩ :=
  reach_toAcq.tail
    (Step.mk ⟨false, [0], 0⟩ ⟨true, [0], 0⟩ [] [] ⟨Phase.toAcquire, some 0⟩
      ⟨Phase.computing, some 0⟩ [] (ThreadStep.acquire ⟨false, [0], 0⟩ 0))

/-- The isolated computation produced no usable response; the call takes
the lines-96-102 path and returns `Output()` + `INTERNAL` while
`GPU_DEVICE_BUSY` is still `True` and ticket 0 is still in `GPU_QUEUE`. -/
lemma reach_leak :
    Reachable 1 ⟨⟨true, [0], 0⟩, [⟨Phase.doneLeak (errResult none), some 0⟩], [0]⟩ :=
  reach_computing.tail
    (Step.mk ⟨true, [0], 0⟩ ⟨true, [0], 0⟩ [] [] ⟨Phase.computing, some 0⟩
      ⟨Phase.doneLeak (errResult none), some 0⟩ [0] (ThreadStep.computeBad ⟨true, [0], 0⟩ 0 none))

/-- An exception inside the forecast section reaches the handler while
the call holds the lock. -/
lemma reach_handlerTrue :
    Reachable 1 ⟨⟨true, [0], 0⟩, [⟨Phase.handler true, some 0⟩], [0]⟩ :=
  reach_computing.tail
    (Step.mk ⟨true, [0], 0⟩ ⟨true, [0], 0⟩ [] [] ⟨Phase.computing, some 0⟩
      ⟨Phase.handler true, some 0⟩ [0] (ThreadStep.computeFault ⟨true, [0], 0⟩ 0))

/-- The handler sees its ticket at the head, releases, and returns the
`Fail` output (no status code). -/
lemma reach_fail :
    Reachable 1 ⟨⟨false, [], 0⟩, [⟨Phase.doneFail failResult, some 0⟩], [0]⟩ :=
  reach_handlerTrue.tail
    (Step.mk ⟨true, [0], 0⟩ ⟨false, [], 0⟩ [] [] ⟨Phase.handler true, some 0⟩
      ⟨Phase.doneFail failResult, some 0⟩ [0]
      (ThreadStep.handlerHead ⟨true, [0], 0⟩ ⟨false, [], 0⟩ true 0 rfl (by decide)))

/-- The computation produced a good dictionary. -/
lemma reach_releasing :
    Reachable 1 ⟨⟨true, [0], 0⟩,
      [⟨Phase.releasing ⟨"w", "a", 1, none⟩, some 0⟩], [0]⟩ :=
  reach_computing.tail
    (Step.mk ⟨true, [0], 0⟩ ⟨true, [0], 0⟩ [] [] ⟨Phase.computing, some 0⟩
      ⟨Phase.releasing ⟨"w", "a", 1, none⟩, some 0⟩ [0]
      (ThreadStep.computeGood ⟨true, [0], 0⟩ 0 ⟨"w", "a", 1, none⟩ rfl))

/-- `release_gpu` succeeded: ticket 0 removed, device free. -/
lemma reach_returning :
    Reachable 1 ⟨⟨false, [], 0⟩,
      [⟨Phase.returning ⟨"w", "a", 1, none⟩, some 0⟩], [0]⟩ :=
  reach_releasing.tail
    (Step.mk ⟨true, [0], 0⟩ ⟨false, [], 0⟩ [] []
      ⟨Phase.releasing ⟨"w", "a", 1, none⟩, some 0⟩
      ⟨Phase.returning ⟨"w", "a", 1, none⟩, some 0⟩ [0]
      (ThreadStep.release ⟨true, [0], 0⟩ ⟨false, [], 0⟩ 0 ⟨"w", "a", 1, none⟩ (by decide)))

/-- Building the success `Output` raised AFTER `release_gpu`: the handler
runs with the call's ticket no longer queued and the queue empty. -/
lemma reach_postRelease :
    Reachable 1 ⟨⟨false, [], 0⟩, [⟨Phase.handler false, some 0⟩], [0]⟩ :=
  reach_returning.tail
    (Step.mk ⟨false, [], 0⟩ ⟨false, [], 0⟩ [] []
      ⟨Phase.returning ⟨"w", "a", 1, none⟩, some 0⟩
      ⟨Phase.handler false, some 0⟩ [0]
      (ThreadStep.returnFault ⟨false, [], 0⟩ 0 ⟨"w", "a", 1, none⟩))

/- ### The claims -/

/-- C1 (code_bug): the claim says that however a call completes, cleanup
runs before the response is returned (ticket out of the queue, busy flag
not left set on the call's behalf).  The code violates this on the
response-check failure path (lines 96-102): it returns `Output()` with
`INTERNAL` WITHOUT calling `release_gpu` or `remove_from_queue`.  This
theorem exhibits a reachable state in which the single call has returned
(`doneLeak` carries the returned `errResult`) while `GPU_DEVICE_BUSY` is
still `true` and the call's ticket `0` is still in `GPU_QUEUE` — every
later call then waits on the head forever. -/
theorem C1_error_path_leaks_lock_and_ticket :
    Reachable 1 ⟨⟨true, [0], 0⟩, [⟨Phase.doneLeak (errResult none), some 0⟩], [0]⟩ ∧
    (GpuState.mk true [0] 0).GPU_DEVICE_BUSY = true ∧
    (0 : Int) ∈ (GpuState.mk true [0] 0).GPU_QUEUE :=
  ⟨reach_leak, rfl, by decide⟩

/-- C2 (code_bug): the claim says a call whose wait exceeds 3600 polls
returns a timeout failure.  In the code the timeout check (lines 61-64)
merely constructs `Output(last_sax_word="GPU Busy!", ...)` and discards
it — there is no `return` — so a waiting call has no timeout transition
at all: past the limit, every step either polls again or faults into the
handler; it never returns a response and never acquires. -/
theorem C2_timeout_never_returns (g g2 : GpuState) (k : Int) (c : Nat) (t2 : Thread)
    (hc : 3600 < c) (hcond : waitCond g k = true)
    (hstep : ThreadStep g ⟨Phase.waiting c, some k⟩ g2 t2) :
    g2 = g ∧ (t2 = ⟨Phase.waiting (c + 1), some k⟩ ∨ t2 = ⟨Phase.handler false, some k⟩) := by
  cases hstep with
  | poll h => exact ⟨rfl, Or.inl rfl⟩
  | waitFault => exact ⟨rfl, Or.inr rfl⟩
  | exitLoop =>
    rename_i hfalse
    rw [hcond] at hfalse
    cases hfalse

/-- Witness for C2: a second call (ticket 1) has polled 3601 times while
the device is busy; its next step is yet another poll iteration. -/
theorem C2_timeout_never_returns_witness :
    3600 < 3601 ∧ waitCond ⟨true, [0, 1], 1⟩ 1 = true ∧
    ((⟨true, [0, 1], 1⟩ : GpuState) = ⟨true, [0, 1], 1⟩ ∧
      ((⟨Phase.waiting 3602, some 1⟩ : Thread) = ⟨Phase.waiting (3601 + 1), some 1⟩ ∨
        (⟨Phase.waiting 3602, some 1⟩ : Thread) = ⟨Phase.handler false, some 1⟩)) :=
  ⟨by decide, by decide,
    C2_timeout_never_returns ⟨true, [0, 1], 1⟩ ⟨true, [0, 1], 1⟩ 1 3601
      ⟨Phase.waiting 3602, some 1⟩ (by decide) (by decide)
      (ThreadStep.poll ⟨true, [0, 1], 1⟩ 1 3601 (by decide))⟩

/-- C3 counterexample: releasing twice is NOT an error-free no-op.
`release_gpu` first runs `GPU_QUEUE.remove(id)`; after a successful
release the ticket is gone, so the second call's `list.remove` raises
`ValueError` (modelled as `none`) instead of leaving the free state
unchanged. -/
theorem C3_double_release_raises :
    release_gpu 0 ⟨true, [0], 0⟩ = some ⟨false, [], 0⟩ ∧
    release_gpu 0 ⟨false, [], 0⟩ = none := by decide

/-- C3 amended: the busy-flag transition of a release is idempotent-safe
only on the flag; the operation as a whole also removes the ticket, so
for a ticket queued exactly once the first release succeeds and leaves
the resource free, while the second release of the same ticket raises
(`none`) rather than being a no-op. -/
theorem C3_release_not_idempotent (g : GpuState) (t : Int)
    (h : g.GPU_QUEUE.count t = 1) :
    ∃ g2, release_gpu t g = some g2 ∧ g2.GPU_DEVICE_BUSY = false ∧
      g2.GPU_QUEUE = g.GPU_QUEUE.erase t ∧ release_gpu t g2 = none := by
  have hmem : t ∈ g.GPU_QUEUE := List.one_le_count_iff.mp (le_of_eq h.symm)
  refine ⟨⟨false, g.GPU_QUEUE.erase t, g.GPU_QUEUE_ID⟩,
    release_eq_some_iff.mpr ⟨hmem, rfl⟩, rfl, rfl, ?_⟩
  apply release_eq_none_iff.mpr
  apply List.count_eq_zero.mp
  rw [List.count_erase_self, h]

/-- Witness for C3 amended. -/
theorem C3_release_not_idempotent_witness :
    (GpuState.mk true [0] 0).GPU_QUEUE.count 0 = 1 ∧
    ∃ g2, release_gpu 0 ⟨true, [0], 0⟩ = some g2 ∧ g2.GPU_DEVICE_BUSY = false ∧
      g2.GPU_QUEUE = (GpuState.mk true [0] 0).GPU_QUEUE.erase 0 ∧
      release_gpu 0 g2 = none :=
  ⟨by decide, C3_release_not_idempotent ⟨true, [0], 0⟩ 0 (by decide)⟩

/-- C4 (confirmed): acquisition is strictly FIFO by ticket id.  The ghost
log `acqLog` records the tickets in the order they performed
`acquire_gpu`; in every reachable state it is strictly increasing, so if
ticket A was enqueued before ticket B (equivalently A < B, since
`get_gpu_queue_id` hands out increasing ids) and both acquire, A acquired
first.  Moreover a call at its `acquire_gpu` step (phase `toAcquire`,
i.e. past the head-and-free guard) has the minimal ticket of the queue:
no call acquires while an earlier ticket is still in the wait queue. -/
theorem C4_fifo_acquisition (n : Nat) (s : SysState) (h : Reachable n s) :
    s.acqLog.Sorted (· < ·) ∧
    ∀ th ∈ s.threads, th.phase = Phase.toAcquire →
      ∀ t, th.ticket = some t → ∀ u ∈ s.gpu.GPU_QUEUE, t ≤ u := by
  have inv := reachable_sysInv h
  refine ⟨inv.logSorted, ?_⟩
  intro th hth hph t ht u hu
  have hcrit : critB th = true := by
    cases th with
    | mk ph tk =>
      dsimp only at hph
      subst hph
      rfl
  have hhd := inv.critHead th hth hcrit
  rw [ht] at hhd
  exact sorted_head?_le inv.qSorted hhd hu

/-- Witness for C4 at a reachable state with a call at its acquire step. -/
theorem C4_fifo_acquisition_witness :
    ([] : List Int).Sorted (· < ·) ∧
    ∀ th ∈ [(⟨Phase.toAcquire, some 0⟩ : Thread)], th.phase = Phase.toAcquire →
      ∀ t, th.ticket = some t → ∀ u ∈ ([0] : List Int), t ≤ u :=
  C4_fifo_acquisition 1 ⟨⟨false, [0], 0⟩, [⟨Phase.toAcquire, some 0⟩], []⟩ reach_toAcq

/-- C5 (confirmed): `get_gpu_queue_id` returns `GPU_QUEUE_ID + 1` and
appends exactly that value to the tail of `GPU_QUEUE`; in every reachable
state all issued tickets are ≤ `GPU_QUEUE_ID` (so the next ticket is
strictly greater than every previously issued one) and no two live calls
carry the same ticket (no identifier is reused). -/
theorem C5_ticket_allocation :
    (∀ g : GpuState,
      (get_gpu_queue_id g).1 = g.GPU_QUEUE_ID + 1 ∧
      (get_gpu_queue_id g).2.GPU_QUEUE = g.GPU_QUEUE ++ [g.GPU_QUEUE_ID + 1] ∧
      (get_gpu_queue_id g).2.GPU_QUEUE_ID = g.GPU_QUEUE_ID + 1) ∧
    ∀ (n : Nat) (s : SysState), Reachable n s →
      (s.threads.filterMap Thread.ticket).Nodup ∧
      ∀ th ∈ s.threads, ∀ t, th.ticket = some t → t ≤ s.gpu.GPU_QUEUE_ID := by
  constructor
  · intro g
    exact ⟨rfl, rfl, rfl⟩
  · intro n s h
    have inv := reachable_sysInv h
    exact ⟨inv.tNodup, inv.tBound⟩

/-- Witness for C5: the first enqueue from the initial globals yields
ticket 0, and a reachable one-call state has distinct bounded tickets. -/
theorem C5_ticket_allocation_witness :
    ((get_gpu_queue_id ⟨false, [], -1⟩).1 = 0 ∧
     (get_gpu_queue_id ⟨false, [], -1⟩).2.GPU_QUEUE = [0] ∧
     (get_gpu_queue_id ⟨false, [], -1⟩).2.GPU_QUEUE_ID = 0) ∧
    (([(⟨Phase.waiting 0, some 0⟩ : Thread)].filterMap Thread.ticket).Nodup ∧
     ∀ th ∈ [(⟨Phase.waiting 0, some 0⟩ : Thread)], ∀ t, th.ticket = some t →
       t ≤ (0 : Int)) :=
  ⟨C5_ticket_allocation.1 ⟨false, [], -1⟩,
   C5_ticket_allocation.2 1 ⟨⟨false, [0], 0⟩, [⟨Phase.waiting 0, some 0⟩], []⟩ reach_wait⟩

/-- A call that holds the device is in particular in the critical region. -/
lemma holder_is_crit (th : Thread) (h : holderB th = true) : critB th = true := by
  cases th with
  | mk ph tk => cases ph <;> simp_all [holderB, critB]

/-- C6 counterexample: `acquire_gpu` (lines 143-147) performs no check of
the flag and cannot fail.  Invoked on a state that is already busy it
completes normally — the flag is (re-)written to `True` and the invoking
call proceeds to run the computation as holder — contradicting
"succeeds only when the resource state is free / does not (re-)grant". -/
theorem C6_acquire_gpu_unconditional :
    acquire_gpu ⟨true, [5, 7], 7⟩ = ⟨true, [5, 7], 7⟩ ∧
    ThreadStep ⟨true, [5, 7], 7⟩ ⟨Phase.toAcquire, some 7⟩
      ⟨true, [5, 7], 7⟩ ⟨Phase.computing, some 7⟩ :=
  ⟨rfl, ThreadStep.acquire ⟨true, [5, 7], 7⟩ 7⟩

/-- C6 amended: the guard lives in the caller, not in `acquire_gpu`: in
every reachable state, a call at its `acquire_gpu` step (it passed the
wait-loop guard) sees the flag free and its ticket at the head, and the
step transitions the flag from free to busy. -/
theorem C6_acquire_only_from_free (n : Nat) (s : SysState) (l1 l2 : List Thread)
    (t t2 : Thread) (g2 : GpuState)
    (hr : Reachable n s) (hth : s.threads = l1 ++ t :: l2)
    (hph : t.phase = Phase.toAcquire)
    (hstep : ThreadStep s.gpu t g2 t2) :
    s.gpu.GPU_DEVICE_BUSY = false ∧ g2.GPU_DEVICE_BUSY = true ∧
    t2.phase = Phase.computing ∧ s.gpu.GPU_QUEUE.head? = t.ticket := by
  have inv := reachable_sysInv hr
  have hmem : t ∈ s.threads := by rw [hth]; simp
  have hbusy := inv.toAcqFree t hmem hph
  have hcrit : critB t = true := by
    cases t with
    | mk ph tk => dsimp only at hph; subst hph; rfl
  have hhd := inv.critHead t hmem hcrit
  cases t with
  | mk ph tk =>
    dsimp only at hph
    subst hph
    cases hstep with
    | acquire => exact ⟨hbusy, rfl, rfl, hhd⟩

/-- Witness for C6 amended at a reachable pre-acquisition state. -/
theorem C6_acquire_only_from_free_witness :
    (GpuState.mk false [0] 0).GPU_DEVICE_BUSY = false ∧
    (acquire_gpu ⟨false, [0], 0⟩).GPU_DEVICE_BUSY = true ∧
    (⟨Phase.computing, some 0⟩ : Thread).phase = Phase.computing ∧
    (GpuState.mk false [0] 0).GPU_QUEUE.head? = some 0 :=
  C6_acquire_only_from_free 1 ⟨⟨false, [0], 0⟩, [⟨Phase.toAcquire, some 0⟩], []⟩
    [] [] ⟨Phase.toAcquire, some 0⟩ ⟨Phase.computing, some 0⟩ (acquire_gpu ⟨false, [0], 0⟩)
    reach_toAcq rfl rfl (ThreadStep.acquire ⟨false, [0], 0⟩ 0)

/-- C7 (confirmed): in every reachable state, the busy flag is true iff
some ticket holds the device (holder = a call that ran `acquire_gpu` and
has not released — including a call that returned on the leaking path
without releasing), at most one call holds it at a time, and the
holder's ticket is at the head of the wait queue until release removes
it. -/
theorem C7_busy_iff_unique_holder (n : Nat) (s : SysState) (h : Reachable n s) :
    (s.gpu.GPU_DEVICE_BUSY = true ↔ ∃ th ∈ s.threads, holderB th = true) ∧
    s.threads.countP holderB ≤ 1 ∧
    ∀ th ∈ s.threads, holderB th = true → s.gpu.GPU_QUEUE.head? = th.ticket := by
  have inv := reachable_sysInv h
  refine ⟨inv.busyIff, ?_, ?_⟩
  · exact le_trans (List.countP_mono_left (fun a _ ha => holder_is_crit a ha)) inv.critCount
  · intro th hth hh
    exact inv.critHead th hth (holder_is_crit th hh)

/-- Witness for C7 at a reachable state with a holder. -/
theorem C7_busy_iff_unique_holder_witness :
    ((GpuState.mk true [0] 0).GPU_DEVICE_BUSY = true ↔
      ∃ th ∈ [(⟨Phase.computing, some 0⟩ : Thread)], holderB th = true) ∧
    [(⟨Phase.computing, some 0⟩ : Thread)].countP holderB ≤ 1 ∧
    ∀ th ∈ [(⟨Phase.computing, some 0⟩ : Thread)], holderB th = true →
      (GpuState.mk true [0] 0).GPU_QUEUE.head? = th.ticket :=
  C7_busy_iff_unique_holder 1 ⟨⟨true, [0], 0⟩, [⟨Phase.computing, some 0⟩], [0]⟩
    reach_computing

/-- C8 counterexample: a call whose forecast section raises (a
computation failure) returns via the handler (lines 124-126) the output
`Fail`/`Fail`/`-1` with NO status code set — not an empty/default result
with `INTERNAL` — refuting "every failing call returns an empty/default
result with an out-of-band INTERNAL status". -/
theorem C8_handler_response_lacks_internal :
    Reachable 1 ⟨⟨false, [], 0⟩, [⟨Phase.doneFail failResult, some 0⟩], [0]⟩ ∧
    failResult.code = none ∧ failResult.out ≠ emptyOutput ∧
    failResult.out.last_sax_word = "Fail" :=
  ⟨reach_fail, rfl, by decide, rfl⟩

/-- C8 amended: only the response-check failure path (lines 96-102)
returns the empty `Output()` with `INTERNAL` and the message; a call
failing through the exception handler returns `Fail`/`Fail`/`-1` with no
status code; a successful call sets no code either (and a timed-out call
never returns at all: C2). -/
theorem C8_error_reporting_by_path (n : Nat) (s : SysState) (h : Reachable n s) :
    ∀ th ∈ s.threads, PayloadOK th :=
  (reachable_sysInv h).payload

/-- Witness for C8 amended at the concrete failed call of `reach_fail`. -/
theorem C8_error_reporting_by_path_witness :
    PayloadOK ⟨Phase.doneFail failResult, some 0⟩ :=
  C8_error_reporting_by_path 1 ⟨⟨false, [], 0⟩, [⟨Phase.doneFail failResult, some 0⟩], [0]⟩
    reach_fail ⟨Phase.doneFail failResult, some 0⟩ (by simp)

/-- C9 (confirmed): the handler's cleanup is asymmetric exactly as
claimed.  If the failing call currently holds the lock (`held = true`),
its resolution releases the lock and removes its ticket; if it never
became the holder (`held = false` and its ticket is still queued —
tickets never re-enter the queue, so this characterizes calls that
faulted before acquiring), its resolution leaves the busy flag exactly
as it was and only removes the call's own ticket. -/
theorem C9_asymmetric_cleanup (n : Nat) (s : SysState) (l1 l2 : List Thread)
    (held : Bool) (k : Int) (g2 : GpuState) (t2 : Thread)
    (hr : Reachable n s)
    (hth : s.threads = l1 ++ ⟨Phase.handler held, some k⟩ :: l2)
    (hstep : ThreadStep s.gpu ⟨Phase.handler held, some k⟩ g2 t2) :
    (held = true →
      s.gpu.GPU_DEVICE_BUSY = true ∧ k ∈ s.gpu.GPU_QUEUE ∧
      g2.GPU_DEVICE_BUSY = false ∧ g2.GPU_QUEUE = s.gpu.GPU_QUEUE.erase k) ∧
    (held = false → k ∈ s.gpu.GPU_QUEUE →
      g2.GPU_DEVICE_BUSY = s.gpu.GPU_DEVICE_BUSY ∧
      g2.GPU_QUEUE = s.gpu.GPU_QUEUE.erase k) := by
  have inv := reachable_sysInv hr
  have hmem : (⟨Phase.handler held, some k⟩ : Thread) ∈ s.threads := by rw [hth]; simp
  constructor
  · rintro rfl
    have hbusy : s.gpu.GPU_DEVICE_BUSY = true := inv.busyIff.mpr ⟨_, hmem, rfl⟩
    have hkQ : k ∈ s.gpu.GPU_QUEUE := by
      obtain ⟨k2, hk2, hQ⟩ := inv.inQ _ hmem rfl
      injection hk2 with he
      rw [he]
      exact hQ
    have hhd : s.gpu.GPU_QUEUE.head? = some k := inv.critHead _ hmem rfl
    cases hstep with
    | handlerHead =>
      rename_i hhd2 hrel
      obtain ⟨_, hg2⟩ := release_eq_some_iff.mp hrel
      subst hg2
      exact ⟨hbusy, hkQ, rfl, rfl⟩
    | handlerRemove =>
      rename_i hne hhd2 hrem
      exact absurd hhd hhd2
    | handlerRemoveFault =>
      rename_i hne hhd2 hrem
      exact absurd hhd hhd2
    | handlerEmpty =>
      rename_i hq
      rw [hq] at hkQ
      cases hkQ
  · rintro rfl hkQ
    cases hstep with
    | handlerHead =>
      rename_i hhd2 hrel
      obtain ⟨_, hg2⟩ := release_eq_some_iff.mp hrel
      subst hg2
      have hbusy : s.gpu.GPU_DEVICE_BUSY = false := by
        cases hb : s.gpu.GPU_DEVICE_BUSY with
        | false => rfl
        | true =>
          exfalso
          obtain ⟨z, hz, hold⟩ := inv.busyIff.mp hb
          have hzk := inv.critHead z hz (holder_is_crit z hold)
          rw [hhd2] at hzk
          rw [hth] at hz
          rcases mem_split.mp hz with h | h | h
          · exact ticket_clash (hth ▸ inv.tNodup) rfl (Or.inl h) hzk.symm
          · rw [h] at hold; exact Bool.noConfusion hold
          · exact ticket_clash (hth ▸ inv.tNodup) rfl (Or.inr h) hzk.symm
      rw [hbusy]
      exact ⟨rfl, rfl⟩
    | handlerRemove =>
      rename_i hne hhd2 hrem
      obtain ⟨_, hg2⟩ := remove_eq_some_iff.mp hrem
      subst hg2
      exact ⟨rfl, rfl⟩
    | handlerRemoveFault =>
      rename_i hne hhd2 hrem
      exact absurd hkQ (remove_eq_none_iff.mp hrem)
    | handlerEmpty =>
      rename_i hq
      rw [hq] at hkQ
      cases hkQ

/-- Witness for C9: the holder branch at a reachable handler state. -/
theorem C9_asymmetric_cleanup_witness :
    (true = true →
      (GpuState.mk true [0] 0).GPU_DEVICE_BUSY = true ∧
      (0 : Int) ∈ (GpuState.mk true [0] 0).GPU_QUEUE ∧
      (GpuState.mk false [] 0).GPU_DEVICE_BUSY = false ∧
      (GpuState.mk false [] 0).GPU_QUEUE = (GpuState.mk true [0] 0).GPU_QUEUE.erase 0) ∧
    (true = false → (0 : Int) ∈ (GpuState.mk true [0] 0).GPU_QUEUE →
      (GpuState.mk false [] 0).GPU_DEVICE_BUSY = (GpuState.mk true [0] 0).GPU_DEVICE_BUSY ∧
      (GpuState.mk false [] 0).GPU_QUEUE = (GpuState.mk true [0] 0).GPU_QUEUE.erase 0) :=
  C9_asymmetric_cleanup 1 ⟨⟨true, [0], 0⟩, [⟨Phase.handler true, some 0⟩], [0]⟩
    [] [] true 0 ⟨false, [], 0⟩ ⟨Phase.doneFail failResult, some 0⟩
    reach_handlerTrue rfl
    (ThreadStep.handlerHead ⟨true, [0], 0⟩ ⟨false, [], 0⟩ true 0 rfl (by decide))

/-- C10 counterexample: an exception raised while the success `Output`
is being built (lines 114-116), AFTER `release_gpu` already removed the
ticket, reaches the handler with `GPU_QUEUE` empty; the handler's
`GPU_QUEUE[0]` (line 120) then raises `IndexError` — refuting "every
evaluation of `GPU_QUEUE[0]` occurs in a state where the queue is
non-empty". -/
theorem C10_handler_head_on_empty_queue :
    Reachable 1 ⟨⟨false, [], 0⟩, [⟨Phase.handler false, some 0⟩], [0]⟩ ∧
    (GpuState.mk false [] 0).GPU_QUEUE = [] ∧
    ThreadStep ⟨false, [], 0⟩ ⟨Phase.handler false, some 0⟩
      ⟨false, [], 0⟩ ⟨Phase.crashed, some 0⟩ :=
  ⟨reach_postRelease, rfl, ThreadStep.handlerEmpty ⟨false, [], 0⟩ false 0 rfl⟩


/-- How one step of a single call changes `GPU_QUEUE`: it is unchanged,
or `get_gpu_queue_id` appended the fresh ticket at the tail, or the
stepping call erased its OWN ticket (`release_gpu` at line 113 or 121,
or `remove_from_queue` at line 123).  No step touches another call's
ticket. -/
lemma thread_step_queue {g g2 : GpuState} {t t2 : Thread}
    (hstep : ThreadStep g t g2 t2) :
    g2.GPU_QUEUE = g.GPU_QUEUE ∨
    g2.GPU_QUEUE = g.GPU_QUEUE ++ [g.GPU_QUEUE_ID + 1] ∨
    ∃ k, t.ticket = some k ∧ g2.GPU_QUEUE = g.GPU_QUEUE.erase k := by
  cases hstep with
  | enter => exact Or.inr (Or.inl rfl)
  | poll => exact Or.inl rfl
  | waitFault => exact Or.inl rfl
  | exitLoop => exact Or.inl rfl
  | acquire => exact Or.inl rfl
  | computeBad => exact Or.inl rfl
  | computeGood => exact Or.inl rfl
  | computeFault => exact Or.inl rfl
  | release =>
    rename_i hrel
    obtain ⟨hm, hg2⟩ := release_eq_some_iff.mp hrel
    subst hg2
    exact Or.inr (Or.inr ⟨_, rfl, rfl⟩)
  | releaseFault => exact Or.inl rfl
  | returnOk => exact Or.inl rfl
  | returnFault => exact Or.inl rfl
  | handlerHead =>
    rename_i hhd hrel
    obtain ⟨hm, hg2⟩ := release_eq_some_iff.mp hrel
    subst hg2
    exact Or.inr (Or.inr ⟨_, rfl, rfl⟩)
  | handlerRemove =>
    rename_i hne hhd hrem
    obtain ⟨hm, hg2⟩ := remove_eq_some_iff.mp hrem
    subst hg2
    exact Or.inr (Or.inr ⟨_, rfl, rfl⟩)
  | handlerRemoveFault => exact Or.inl rfl
  | handlerEmpty => exact Or.inl rfl

/-- The single call faulted inside the wait-loop body (e.g. an
interrupted sleep) and entered the handler without ever holding the
lock; its ticket 0 is still in the queue. -/
lemma reach_waitFaulted :
    Reachable 1 ⟨⟨false, [0], 0⟩, [⟨Phase.handler false, some 0⟩], []⟩ :=
  reach_wait.tail
    (Step.mk ⟨false, [0], 0⟩ ⟨false, [0], 0⟩ [] [] ⟨Phase.waiting 0, some 0⟩
      ⟨Phase.handler false, some 0⟩ [] (ThreadStep.waitFault ⟨false, [0], 0⟩ 0 0))

/-- C10 amended: the wait-loop evaluation of `GPU_QUEUE[0]` is always
safe — a waiting call's own ticket is in the queue — and the handler's
accesses are safe whenever the exception was raised before
`release_gpu`, whether while holding or never having held the lock.
The conjuncts settle this in full:
(1) a waiting call's ticket is in the queue, so the loop's head access
never fails;
(2) a call that faulted while holding (`handler true`) still has its
ticket queued;
(3) ANY handler entry — `held` true or false — whose ticket is still
queued resolves safely: the queue is non-empty, `remove_from_queue`
cannot raise, and every resolution step returns the `Fail` response
(never `crashed`);
(4) a wait-loop fault (the never-held case) enters the handler with the
globals untouched and its ticket still queued;
(5) no step of a call with a different ticket ever removes that ticket
from the queue — so a pre-release faulter's ticket stays queued until
its own handler resolves.
Only an exception raised after `release_gpu` (while the success `Output`
is built) reaches the handler with the ticket absent, which is the
counterexample's crash. -/
theorem C10_queue_access_safety (n : Nat) (s : SysState) (h : Reachable n s) :
    (∀ th ∈ s.threads, ∀ c : Nat, th.phase = Phase.waiting c →
      ∃ k, th.ticket = some k ∧ k ∈ s.gpu.GPU_QUEUE) ∧
    (∀ th ∈ s.threads, th.phase = Phase.handler true →
      ∃ k, th.ticket = some k ∧ k ∈ s.gpu.GPU_QUEUE) ∧
    (∀ th ∈ s.threads, ∀ (held : Bool) (k : Int),
      th.phase = Phase.handler held → th.ticket = some k →
      k ∈ s.gpu.GPU_QUEUE →
      s.gpu.GPU_QUEUE ≠ [] ∧ remove_from_queue k s.gpu ≠ none ∧
      ∀ g2 t2, ThreadStep s.gpu th g2 t2 →
        t2 = ⟨Phase.doneFail failResult, some k⟩) ∧
    (∀ th ∈ s.threads, ∀ (c : Nat) (k : Int),
      th.phase = Phase.waiting c → th.ticket = some k →
      ∀ g2 t2, ThreadStep s.gpu th g2 t2 → t2.phase = Phase.handler false →
        g2 = s.gpu ∧ k ∈ g2.GPU_QUEUE) ∧
    (∀ (l1 l2 : List Thread) (t t2 : Thread) (g2 : GpuState),
      s.threads = l1 ++ t :: l2 → ThreadStep s.gpu t g2 t2 →
      ∀ k, k ∈ s.gpu.GPU_QUEUE → t.ticket ≠ some k → k ∈ g2.GPU_QUEUE) := by
  have inv := reachable_sysInv h
  refine ⟨?_, ?_, ?_, ?_, ?_⟩
  · intro th hth c hph
    apply inv.inQ th hth
    rw [hph]
    rfl
  · intro th hth hph
    exact inv.inQ th hth (by rw [hph]; rfl)
  · intro th hth held k hph hk hkQ
    refine ⟨List.ne_nil_of_mem hkQ, ?_, ?_⟩
    · intro hnone
      exact absurd hkQ (remove_eq_none_iff.mp hnone)
    · intro g2 t2 hstep
      cases th with
      | mk ph tk =>
        dsimp only at hph hk
        subst hph
        subst hk
        cases hstep with
        | handlerHead => rfl
        | handlerRemove => rfl
        | handlerRemoveFault =>
          rename_i hne2 hhd2 hrem2
          exact absurd hkQ (remove_eq_none_iff.mp hrem2)
        | handlerEmpty =>
          rename_i hq
          rw [hq] at hkQ
          exact absurd hkQ (List.not_mem_nil k)
  · intro th hth c k hph hk g2 t2 hstep hph2
    cases th with
    | mk ph tk =>
      dsimp only at hph hk
      subst hph
      subst hk
      cases hstep with
      | poll => exact Phase.noConfusion hph2
      | exitLoop => exact Phase.noConfusion hph2
      | waitFault =>
        refine ⟨rfl, ?_⟩
        obtain ⟨k2, hk2, hQ⟩ := inv.inQ ⟨Phase.waiting c, some k⟩ hth rfl
        injection hk2 with he
        rw [he]
        exact hQ
  · intro l1 l2 t t2 g2 hths hstep k hkQ hne
    rcases thread_step_queue hstep with hq | hq | ⟨k2, hk2, hq⟩
    · rw [hq]
      exact hkQ
    · rw [hq]
      exact List.mem_append_left _ hkQ
    · rw [hq]
      refine (List.mem_erase_of_ne ?_).mpr hkQ
      intro he
      subst he
      exact hne hk2

/-- Witness for C10 amended at the reachable wait-loop-faulter state:
the never-held handler entry with its ticket still queued. -/
theorem C10_queue_access_safety_witness :
    ((∀ th ∈ [(⟨Phase.handler false, some 0⟩ : Thread)], ∀ c : Nat,
        th.phase = Phase.waiting c →
        ∃ k, th.ticket = some k ∧ k ∈ (GpuState.mk false [0] 0).GPU_QUEUE) ∧
     (∀ th ∈ [(⟨Phase.handler false, some 0⟩ : Thread)],
        th.phase = Phase.handler true →
        ∃ k, th.ticket = some k ∧ k ∈ (GpuState.mk false [0] 0).GPU_QUEUE) ∧
     (∀ th ∈ [(⟨Phase.handler false, some 0⟩ : Thread)], ∀ (held : Bool) (k : Int),
        th.phase = Phase.handler held → th.ticket = some k →
        k ∈ (GpuState.mk false [0] 0).GPU_QUEUE →
        (GpuState.mk false [0] 0).GPU_QUEUE ≠ [] ∧
        remove_from_queue k ⟨false, [0], 0⟩ ≠ none ∧
        ∀ g2 t2, ThreadStep ⟨false, [0], 0⟩ th g2 t2 →
          t2 = ⟨Phase.doneFail failResult, some k⟩) ∧
     (∀ th ∈ [(⟨Phase.handler false, some 0⟩ : Thread)], ∀ (c : Nat) (k : Int),
        th.phase = Phase.waiting c → th.ticket = some k →
        ∀ g2 t2, ThreadStep ⟨false, [0], 0⟩ th g2 t2 → t2.phase = Phase.handler false →
          g2 = ⟨false, [0], 0⟩ ∧ k ∈ g2.GPU_QUEUE) ∧
     (∀ (l1 l2 : List Thread) (t t2 : Thread) (g2 : GpuState),
        [(⟨Phase.handler false, some 0⟩ : Thread)] = l1 ++ t :: l2 →
        ThreadStep ⟨false, [0], 0⟩ t g2 t2 →
        ∀ k, k ∈ (GpuState.mk false [0] 0).GPU_QUEUE → t.ticket ≠ some k →
          k ∈ g2.GPU_QUEUE)) :=
  C10_queue_access_safety 1 ⟨⟨false, [0], 0⟩, [⟨Phase.handler false, some 0⟩], []⟩
    reach_waitFaulted
